import Mathlib

/-!
Shallow embedding of the slot cooldown/threshold scheduler and the support
behavior loop of the `neuz` repository.

Sources embedded here:
- `src/src-tauri/src/ipc/bot_config.rs` (SlotType, Slot, SlotBar, SupportConfig)
- `src/src-tauri/src/behavior/support_behavior.rs` (SupportBehavior)

Modelling conventions:
- `std::time::Instant` timestamps are modelled as `Nat` milliseconds;
  `t.elapsed().as_millis()` at current instant `now` becomes `now - t`
  (truncated subtraction; in the source an entry's timestamp never lies in
  the future, so the difference is the true elapsed time).
- Rust panics (`Option::unwrap` on `None`) are modelled with
  `Except Unit`: `.error ()` is a panic, `.ok v` a normal result.
- The fixed-size arrays `[Slot; 10]`, `[SlotBar; 9]` and
  `[[Option<Instant>; 10]; 9]` are modelled as lists; every index used by
  the source is within the fixed bounds, so `getD`-style indexing agrees
  with the source's panicking indexing on every access the source performs.
- The external sensor (`ImageAnalyzer`) is an input snapshot; the external
  actuator (keyboard / `send_slot_eval`) is an output trace of `Action`s.
-/

namespace Neuz

/-- `SlotType` enumeration from `bot_config.rs`. -/
inductive SlotType where
  | Unused
  | ChatMessage
  | Food
  | Pill
  | HealSkill
  | MpRestorer
  | FpRestorer
  | PickupPet
  | PickupMotion
  | AttackSkill
  | BuffSkill
  | RezSkill
  | Flying
deriving DecidableEq, Repr

/-- `Slot` struct from `bot_config.rs`: type tag, optional cooldown (ms),
optional threshold, enabled flag.  `u32` fields are modelled as `Nat`. -/
structure Slot where
  slot_type : SlotType
  slot_cooldown : Option Nat
  slot_threshold : Option Nat
  slot_enabled : Bool
deriving DecidableEq, Repr

/-- `impl Default for Slot`. -/
def Slot.defaultSlot : Slot :=
  { slot_type := SlotType.Unused
    slot_cooldown := none
    slot_threshold := none
    slot_enabled := true }

/-- `Slot::get_slot_cooldown`: returns the configured cooldown if set,
otherwise `Some(100)`. -/
def Slot.get_slot_cooldown (s : Slot) : Option Nat :=
  if s.slot_cooldown.isSome then s.slot_cooldown else some 100

/-- `SlotBar` struct: `slots: Option<[Slot; 10]>`. -/
structure SlotBar where
  slots : Option (List Slot)
deriving DecidableEq, Repr

/-- `impl Default for SlotBar`: ten default slots. -/
def SlotBar.defaultBar : SlotBar :=
  { slots := some (List.replicate 10 Slot.defaultSlot) }

/-- `SlotBar::slots`: `self.slots.unwrap()` — panics (`.error ()`) when the
slot array is absent. -/
def SlotBar.slotsVec (b : SlotBar) : Except Unit (List Slot) :=
  match b.slots with
  | some s => Except.ok s
  | none => Except.error ()

/-- The cooldown matrix `[[Option<Instant>; 10]; 9]`: last-used timestamps. -/
abbrev UsageMatrix := List (List (Option Nat))

/-- `last_slots_usage[b][s]` (always in bounds in the source, where the
matrix is a fixed 9×10 array). -/
def getU (m : UsageMatrix) (b s : Nat) : Option Nat :=
  (m.getD b []).getD s none

/-- Write one cell of the cooldown matrix. -/
def setU (m : UsageMatrix) (b s : Nat) (v : Option Nat) : UsageMatrix :=
  m.set b ((m.getD b []).set s v)

/-- The all-`None` 9×10 matrix, `[[None; 10]; 9]`. -/
def emptyUsage : UsageMatrix :=
  List.replicate 9 (List.replicate 10 (none : Option Nat))

/-- The filter predicate of `SlotBar::get_usable_slot_index`:
matching type, enabled, `slot_threshold.unwrap_or(100) >= threshold.unwrap_or(0)`,
and no pending cooldown entry. -/
def slotOk (ty : SlotType) (threshold : Option Nat) (usage : UsageMatrix)
    (barIdx idx : Nat) (s : Slot) : Bool :=
  s.slot_type == ty
    && s.slot_enabled
    && decide (s.slot_threshold.getD 100 ≥ threshold.getD 0)
    && (getU usage barIdx idx).isNone

/-- `.iter().enumerate().filter(...)` over the slot list, carrying the
running index. -/
def candidatesAux (ty : SlotType) (threshold : Option Nat) (usage : UsageMatrix)
    (barIdx : Nat) : Nat → List Slot → List (Nat × Slot)
  | _, [] => []
  | i, s :: rest =>
    if slotOk ty threshold usage barIdx i s then
      (i, s) :: candidatesAux ty threshold usage barIdx (i + 1) rest
    else
      candidatesAux ty threshold usage barIdx (i + 1) rest

/-- `Ord for Option<u32>`: `None` is below every `Some`. -/
def cmpOption : Option Nat → Option Nat → Ordering
  | none, none => Ordering.eq
  | none, some _ => Ordering.lt
  | some _, none => Ordering.gt
  | some a, some b => compare a b

/-- Numeric key realizing `cmpOption`: `none ↦ 0`, `some n ↦ n + 1`. -/
def toKey : Option Nat → Nat
  | none => 0
  | some n => n + 1

/-- One step of Rust's `Iterator::min_by` fold (`core::cmp::min_by` keeps
the first argument unless it is strictly greater). -/
def minStep (acc y : Nat × Slot) : Nat × Slot :=
  if cmpOption acc.2.slot_threshold y.2.slot_threshold = Ordering.gt then y else acc

/-- Rust's `Iterator::min_by` with `x.1.slot_threshold.cmp(&y.1.slot_threshold)`:
the first element with minimal key wins ties. -/
def rustMinBy : List (Nat × Slot) → Option (Nat × Slot)
  | [] => none
  | x :: xs => some (xs.foldl minStep x)

/-- `SlotBar::get_usable_slot_index`: filter the enumerated slots, take the
`min_by` on the raw `Option` threshold, and pair with the bar index.
Panics (via `SlotBar::slots`) when the slot array is absent. -/
def SlotBar.get_usable_slot_index (bar : SlotBar) (ty : SlotType)
    (threshold : Option Nat) (usage : UsageMatrix) (barIdx : Nat) :
    Except Unit (Option (Nat × Nat)) :=
  match bar.slotsVec with
  | Except.error e => Except.error e
  | Except.ok slots =>
      Except.ok ((rustMinBy (candidatesAux ty threshold usage barIdx 0 slots)).map
        (fun p => (barIdx, p.1)))

/-- `SupportConfig` struct: `slot_bars: Option<[SlotBar; 9]>`. -/
structure SupportConfig where
  slot_bars : Option (List SlotBar)
deriving DecidableEq, Repr

/-- `Default for SupportConfig` (derived): `slot_bars = None`. -/
def SupportConfig.defaultConfig : SupportConfig :=
  { slot_bars := none }

/-- `SupportConfig::slot_bars`: the stored bars, or nine default bars. -/
def SupportConfig.slot_barsVec (c : SupportConfig) : List SlotBar :=
  match c.slot_bars with
  | some bars => bars
  | none => List.replicate 9 SlotBar.defaultBar

/-- `self.slot_bars()[b]` (in the source the array always has 9 entries,
so the access is always in bounds). -/
def barAt (c : SupportConfig) (b : Nat) : SlotBar :=
  c.slot_barsVec.getD b SlotBar.defaultBar

/-- `SupportConfig::slots(b)` = `self.slot_bars()[b].slots()`; panics when
that bar's slot array is absent. -/
def SupportConfig.slotsAt (c : SupportConfig) (b : Nat) : Except Unit (List Slot) :=
  (barAt c b).slotsVec

/-- `SupportConfig::get_slot_cooldown(b, s)` =
`self.slots(b)[s].get_slot_cooldown()` (the slot index is always in bounds
in the source, where a bar has exactly 10 slots). -/
def SupportConfig.get_slot_cooldown (c : SupportConfig) (b s : Nat) :
    Except Unit (Option Nat) :=
  match c.slotsAt b with
  | Except.error e => Except.error e
  | Except.ok slots => Except.ok ((slots.getD s Slot.defaultSlot).get_slot_cooldown)

/-- The `for n in 0..9` scan of `SupportConfig::get_usable_slot_index`,
returning at the first bar whose per-bar selection is `Some`. -/
def findUsableAux (c : SupportConfig) (ty : SlotType) (threshold : Option Nat)
    (usage : UsageMatrix) : List Nat → Except Unit (Option (Nat × Nat))
  | [] => Except.ok none
  | n :: ns =>
    match (barAt c n).get_usable_slot_index ty threshold usage n with
    | Except.error e => Except.error e
    | Except.ok (some r) => Except.ok (some r)
    | Except.ok none => findUsableAux c ty threshold usage ns

/-- `SupportConfig::get_usable_slot_index`: scan bars `0..9` in order,
return the first bar's per-bar result. -/
def SupportConfig.get_usable_slot_index (c : SupportConfig) (ty : SlotType)
    (threshold : Option Nat) (usage : UsageMatrix) :
    Except Unit (Option (Nat × Nat)) :=
  findUsableAux c ty threshold usage (List.range 9)

/-! ### The support behavior (`support_behavior.rs`) -/

/-- `image.client_stats`: the per-tick numeric stat values read from the
external sensor. -/
structure ClientStats where
  hp : Nat
  mp : Nat
  fp : Nat
  target_hp : Nat
deriving DecidableEq, Repr

/-- One per-tick sensor snapshot: stats, the optional target marker
(`identify_target_marker`), and — when a marker is present — the value
`get_target_marker_distance` would report for it. -/
structure ImageSnapshot where
  client_stats : ClientStats
  target_marker : Option Nat
  marker_distance : Nat
deriving DecidableEq, Repr

/-- The mutable fields of `SupportBehavior` (the borrowed `movement`,
`window` and logger handles are the external actuator, represented by the
output `Action` trace instead). -/
structure SupportBehavior where
  slots_usage_last_time : UsageMatrix
  last_buff_usage : Nat
  last_jump_time : Nat
  avoid_obstacle_direction : String
  last_far_from_target : Option Nat
deriving DecidableEq, Repr

/-- `SupportBehavior::new` at start instant `now`. -/
def SupportBehavior.new (now : Nat) : SupportBehavior :=
  { slots_usage_last_time := emptyUsage
    last_buff_usage := now
    last_jump_time := now
    avoid_obstacle_direction := "D"
    last_far_from_target := none }

/-- `SupportBehavior::stop`: resets the cooldown matrix (and nothing else). -/
def SupportBehavior.stop (st : SupportBehavior) : SupportBehavior :=
  { st with slots_usage_last_time := emptyUsage }

/-- Commands the behavior issues to the external actuator. -/
inductive Action where
  | sendSlotEval (bar slot : Nat)
  | sleepMs (ms : Nat)
  | pressKey (k : String)
  | holdKeys (ks : List String)
  | waitMs (ms : Nat)
  | releaseKey (k : String)
  | releaseKeys (ks : List String)
  | holdKeyFor (k : String) (ms : Nat)
deriving DecidableEq, Repr

/-- The cooldown decision for one matrix cell of
`SupportBehavior::update_slots_usage`: the cooldown lookup
(`config.get_slot_cooldown(b, s).unwrap_or(100)`) happens for every cell
and can panic; the `u32 → u128` `try_into` always succeeds, so
`cooldown.is_ok()` is always true; the entry is cleared when
`elapsed > cooldown` (strictly). -/
def sweepEntry (c : SupportConfig) (now b s : Nat) (entry : Option Nat) :
    Except Unit (Option Nat) :=
  match c.get_slot_cooldown b s with
  | Except.error e => Except.error e
  | Except.ok cd =>
    match entry with
    | some t => if now - t > cd.getD 100 then Except.ok none else Except.ok (some t)
    | none => Except.ok none

/-- Inner loop of `update_slots_usage` over one bar's entries, with running
slot index. -/
def sweepRow (c : SupportConfig) (now b : Nat) : Nat → List (Option Nat) →
    Except Unit (List (Option Nat))
  | _, [] => Except.ok []
  | s, e :: es =>
    match sweepEntry c now b s e with
    | Except.error err => Except.error err
    | Except.ok e' =>
      match sweepRow c now b (s + 1) es with
      | Except.error err => Except.error err
      | Except.ok es' => Except.ok (e' :: es')

/-- Outer loop of `update_slots_usage` over bars, with running bar index. -/
def sweepRows (c : SupportConfig) (now : Nat) : Nat → List (List (Option Nat)) →
    Except Unit UsageMatrix
  | _, [] => Except.ok []
  | b, row :: rows =>
    match sweepRow c now b 0 row with
    | Except.error err => Except.error err
    | Except.ok row' =>
      match sweepRows c now (b + 1) rows with
      | Except.error err => Except.error err
      | Except.ok rows' => Except.ok (row' :: rows')

/-- `SupportBehavior::update_slots_usage`: the per-tick cooldown sweep.
The source iterates over a copy of the matrix and writes `None` back at the
position being inspected, which is exactly a per-cell pure update. -/
def SupportBehavior.update_slots_usage (c : SupportConfig) (now : Nat)
    (usage : UsageMatrix) : Except Unit UsageMatrix :=
  sweepRows c now 0 usage

/-- `SupportBehavior::send_slot`: issue the actuator command and record the
usage instant in the matrix. -/
def SupportBehavior.send_slot (st : SupportBehavior) (now : Nat)
    (slot_index : Nat × Nat) : SupportBehavior × List Action :=
  ({ st with slots_usage_last_time := setU st.slots_usage_last_time slot_index.1 slot_index.2 (some now) },
   [Action.sendSlotEval slot_index.1 slot_index.2])

/-- `SupportBehavior::get_slot_for`: select a usable slot; when `send` is
true and a slot was found, dispatch it and record its usage. -/
def SupportBehavior.get_slot_for (st : SupportBehavior) (c : SupportConfig)
    (threshold : Option Nat) (ty : SlotType) (send : Bool) (now : Nat) :
    Except Unit (SupportBehavior × List Action × Option (Nat × Nat)) :=
  match c.get_usable_slot_index ty threshold st.slots_usage_last_time with
  | Except.error e => Except.error e
  | Except.ok (some slot_index) =>
    if send then
      let r := st.send_slot now slot_index
      Except.ok (r.1, r.2, some slot_index)
    else
      Except.ok (st, [], some slot_index)
  | Except.ok none => Except.ok (st, [], none)

/-- The timed key sequence of `SupportBehavior::move_circle_pattern`. -/
def circleActs (dir : String) : List Action :=
  [Action.holdKeys ["W", "Space", dir],
   Action.waitMs 200,
   Action.releaseKey dir,
   Action.waitMs 500,
   Action.releaseKeys ["Space", "W"],
   Action.holdKeyFor "S" 50,
   Action.pressKey "Z",
   Action.waitMs 300]

/-- The direction update at the end of `move_circle_pattern`:
`"D"` becomes `"A"`, anything else becomes `"D"`. -/
def toggleDir (d : String) : String :=
  if d = "D" then "A" else "D"

/-- `SupportBehavior::move_circle_pattern`: play the circling macro with the
current turn direction, then toggle the direction. -/
def SupportBehavior.move_circle_pattern (st : SupportBehavior) :
    SupportBehavior × List Action :=
  ({ st with avoid_obstacle_direction := toggleDir st.avoid_obstacle_direction },
   circleActs st.avoid_obstacle_direction)

/-- `SupportBehavior::avoid_obstacle`.  `obstacleAvoidanceCooldown` is
`config.obstacle_avoidance_cooldown()`.
Modelled from the spec: `SupportConfig::obstacle_avoidance_cooldown` is not
part of the excerpted sources (only its caller is); per the spec it is the
configured obstacle-avoidance grace period in milliseconds (default 0), so
it is supplied here as an arbitrary configured value. -/
def SupportBehavior.avoid_obstacle (st : SupportBehavior)
    (obstacleAvoidanceCooldown now : Nat) : SupportBehavior × List Action :=
  match st.last_far_from_target with
  | some t =>
    if now - t > obstacleAvoidanceCooldown then st.move_circle_pattern else (st, [])
  | none => (st, [Action.pressKey "Z"])

/-- `SupportBehavior::check_buffs`.  `intervalBetweenBuffs` is
`config.interval_between_buffs()`.
Modelled from the spec: `SupportConfig::interval_between_buffs` is not part
of the excerpted sources (only its caller is); per the spec it is the
configured inter-buff interval in milliseconds (default 2000), so it is
supplied here as an arbitrary configured value. -/
def SupportBehavior.check_buffs (st : SupportBehavior) (c : SupportConfig)
    (intervalBetweenBuffs now : Nat) :
    Except Unit (SupportBehavior × List Action) :=
  if now - st.last_buff_usage > intervalBetweenBuffs then
    match SupportBehavior.get_slot_for { st with last_buff_usage := now } c none
        SlotType.BuffSkill true now with
    | Except.error e => Except.error e
    | Except.ok (st2, acts, _) => Except.ok (st2, acts ++ [Action.sleepMs 100])
  else
    Except.ok (st, [])

/-- The `// Check HP` block of `check_restorations`: Pill gated on the HP
value, with Food (same gate) tried only when no Pill slot matched. -/
def SupportBehavior.tryPillFood (st : SupportBehavior) (c : SupportConfig)
    (hp now : Nat) : Except Unit (SupportBehavior × List Action) :=
  match st.get_slot_for c (some hp) SlotType.Pill true now with
  | Except.error e => Except.error e
  | Except.ok (sa, aa, ra) =>
    if ra.isNone then
      match sa.get_slot_for c (some hp) SlotType.Food true now with
      | Except.error e => Except.error e
      | Except.ok (sb, ab, _) => Except.ok (sb, aa ++ ab)
    else
      Except.ok (sa, aa)

/-- One single-slot check of `check_restorations` (HealSkill, MpRestorer or
FpRestorer gated on the corresponding stat value). -/
def SupportBehavior.tryStat (st : SupportBehavior) (c : SupportConfig)
    (ty : SlotType) (v now : Nat) : Except Unit (SupportBehavior × List Action) :=
  match st.get_slot_for c (some v) ty true now with
  | Except.error e => Except.error e
  | Except.ok (sa, aa, _) => Except.ok (sa, aa)

/-- `SupportBehavior::check_restorations`: Pill (with Food as fallback when
no Pill matched), HealSkill, MpRestorer, FpRestorer, each gated on the
corresponding stat being positive. -/
def SupportBehavior.check_restorations (st : SupportBehavior)
    (c : SupportConfig) (stats : ClientStats) (now : Nat) :
    Except Unit (SupportBehavior × List Action) :=
  match (if stats.hp > 0 then st.tryPillFood c stats.hp now else Except.ok (st, [])) with
  | Except.error e => Except.error e
  | Except.ok (st1, acts1) =>
    match (if stats.target_hp > 0 then st1.tryStat c SlotType.HealSkill stats.target_hp now else Except.ok (st1, [])) with
    | Except.error e => Except.error e
    | Except.ok (st2, acts2) =>
      match (if stats.mp > 0 then st2.tryStat c SlotType.MpRestorer stats.mp now else Except.ok (st2, [])) with
      | Except.error e => Except.error e
      | Except.ok (st3, acts3) =>
        match (if stats.fp > 0 then st3.tryStat c SlotType.FpRestorer stats.fp now else Except.ok (st3, [])) with
        | Except.error e => Except.error e
        | Except.ok (st4, acts4) => Except.ok (st4, acts1 ++ acts2 ++ acts3 ++ acts4)

/-- The engagement branch of `run_iteration` (everything after the pacing
sleep, reached only when the tick was not terminated by the death check). -/
def SupportBehavior.engagement (st1 : SupportBehavior)
    (intervalBetweenBuffs obstacleAvoidanceCooldown : Nat) (c : SupportConfig)
    (image : ImageSnapshot) (now : Nat) :
    Except Unit (SupportBehavior × List Action) :=
  if image.client_stats.target_hp > 0 then
    match image.target_marker with
    | some _ =>
      if image.marker_distance > 200 then
        let st2 := if st1.last_far_from_target.isNone then
            { st1 with last_far_from_target := some now }
          else st1
        Except.ok (st2.avoid_obstacle obstacleAvoidanceCooldown now)
      else
        SupportBehavior.check_buffs { st1 with last_far_from_target := none }
          c intervalBetweenBuffs now
    | none => Except.ok (st1.avoid_obstacle obstacleAvoidanceCooldown now)
  else
    Except.ok (st1, [])

/-- `SupportBehavior::run_iteration`: one tick of the behavior loop.
The tick is modelled at the single instant `now`; the blocking pacing
delays appear as `Action.sleepMs` entries in the trace. -/
def SupportBehavior.run_iteration (st : SupportBehavior)
    (intervalBetweenBuffs obstacleAvoidanceCooldown : Nat) (c : SupportConfig)
    (image : ImageSnapshot) (now : Nat) :
    Except Unit (SupportBehavior × List Action) :=
  match SupportBehavior.update_slots_usage c now st.slots_usage_last_time with
  | Except.error e => Except.error e
  | Except.ok usage =>
    let st0 : SupportBehavior := { st with slots_usage_last_time := usage }
    if image.client_stats.target_hp = 0 ∧ image.target_marker.isSome then
      match st0.get_slot_for c none SlotType.RezSkill true now with
      | Except.error e => Except.error e
      | Except.ok (st1, acts, _) =>
        Except.ok ({ st1 with slots_usage_last_time := emptyUsage }, acts)
    else
      match st0.check_restorations c image.client_stats now with
      | Except.error e => Except.error e
      | Except.ok (st1, restoActs) =>
        match st1.engagement intervalBetweenBuffs obstacleAvoidanceCooldown c image now with
        | Except.error e => Except.error e
        | Except.ok (st2, engActs) =>
          Except.ok (st2, restoActs ++ [Action.sleepMs 100] ++ engActs)

/-! ### Derived predicates used by the statements -/

/-- Eligibility of slot `s` within an explicit slot list (the conjunction
filtered on by `SlotBar::get_usable_slot_index`). -/
def slotEligible (slots : List Slot) (ty : SlotType) (threshold : Option Nat)
    (usage : UsageMatrix) (b s : Nat) : Bool :=
  match slots.get? s with
  | none => false
  | some slot => slotOk ty threshold usage b s slot

/-- Eligibility of the slot at grid position `(b, s)`: the slot exists, has
the requested type, is enabled, passes the threshold gate, and has no
pending cooldown entry.  A bar with an absent slot array has no eligible
slots (its selection panics instead). -/
def eligibleB (c : SupportConfig) (ty : SlotType) (threshold : Option Nat)
    (usage : UsageMatrix) (b s : Nat) : Bool :=
  match (barAt c b).slots with
  | none => false
  | some slots => slotEligible slots ty threshold usage b s

/-- The slot stored at grid position `(b, s)` (used only at positions that
exist; elsewhere it falls back to the default slot). -/
def slotAtD (c : SupportConfig) (b s : Nat) : Slot :=
  (((barAt c b).slots).getD []).getD s Slot.defaultSlot

/-- Threshold key of the slot at `(b, s)` under the `Option` ordering the
source's `min_by` uses (`none` below every value). -/
def tkey (c : SupportConfig) (b s : Nat) : Nat :=
  toKey (slotAtD c b s).slot_threshold

/-- Threshold key of a candidate pair. -/
def tkp (p : Nat × Slot) : Nat := toKey p.2.slot_threshold

/-- Threshold key of the slot at index `s` of an explicit slot list. -/
def keyAt (slots : List Slot) (s : Nat) : Nat :=
  toKey ((slots.getD s Slot.defaultSlot).slot_threshold)

/-- Number of slots actually stored in bar `b` (10 in every well-formed
configuration). -/
def barLen (c : SupportConfig) (b : Nat) : Nat :=
  (((barAt c b).slots).getD []).length

/-- Whether bar `b` contains any eligible slot. -/
def barHasEligible (c : SupportConfig) (ty : SlotType) (threshold : Option Nat)
    (usage : UsageMatrix) (b : Nat) : Bool :=
  (List.range (barLen c b)).any (fun s => eligibleB c ty threshold usage b s)

/-- No bar strictly before `b` contains an eligible slot. -/
def noEligibleBefore (c : SupportConfig) (ty : SlotType) (threshold : Option Nat)
    (usage : UsageMatrix) (b : Nat) : Bool :=
  (List.range b).all (fun b' => !(barHasEligible c ty threshold usage b'))

/-- Within bar `b`, slot `s` has the minimal threshold key among eligible
slots, and the lowest index among those sharing that key. -/
def barMinimalAt (c : SupportConfig) (ty : SlotType) (threshold : Option Nat)
    (usage : UsageMatrix) (b s : Nat) : Bool :=
  (List.range (barLen c b)).all (fun s' =>
    !(eligibleB c ty threshold usage b s')
      || decide (tkey c b s < tkey c b s')
      || (decide (tkey c b s = tkey c b s') && decide (s ≤ s')))

/-- Well-formedness supplied by the configuration collaborator: every slot
bar of the configuration has its slot array present. -/
def wfConfig (c : SupportConfig) : Prop :=
  ∀ bar ∈ c.slot_barsVec, bar.slots.isSome

instance (c : SupportConfig) : Decidable (wfConfig c) := by
  unfold wfConfig
  infer_instance

/-- Effective cooldown the sweep applies at `(b, s)`: the configured
cooldown, or 100 ms when unset. -/
def effCooldownD (c : SupportConfig) (b s : Nat) : Nat :=
  (slotAtD c b s).slot_cooldown.getD 100

/-- Does an action start the circling macro (a `HoldKeys` command, emitted
only by `move_circle_pattern`)? -/
def isMacroStart : Action → Bool
  | Action.holdKeys _ => true
  | _ => false

/-- Trace shape of the death-check branch: either nothing (no usable
RezSkill slot) or a single dispatch of a RezSkill-typed slot. -/
def rezOnlyActs (c : SupportConfig) : List Action → Bool
  | [] => true
  | [Action.sendSlotEval b s] => (slotAtD c b s).slot_type == SlotType.RezSkill
  | _ => false

/-- Trace shape of a fired buff check: the 100 ms pacing sleep, preceded by
at most one dispatch of a BuffSkill-typed slot. -/
def buffFireActs (c : SupportConfig) : List Action → Bool
  | [Action.sleepMs 100] => true
  | [Action.sendSlotEval b s, Action.sleepMs 100] =>
      (slotAtD c b s).slot_type == SlotType.BuffSkill
  | _ => false

/-- Does the trace consist only of slot dispatch commands?  (The shape of
every restoration-pass trace.) -/
def onlySends (acts : List Action) : Bool :=
  acts.all (fun a => match a with
    | Action.sendSlotEval _ _ => true
    | _ => false)

/-- All behavior fields except the cooldown matrix agree between two
states (slot dispatches touch only the matrix). -/
def timersUnchanged (st st' : SupportBehavior) : Prop :=
  st'.last_buff_usage = st.last_buff_usage
  ∧ st'.last_jump_time = st.last_jump_time
  ∧ st'.avoid_obstacle_direction = st.avoid_obstacle_direction
  ∧ st'.last_far_from_target = st.last_far_from_target

/-! ### Spec-side selector (refinement target for C1) -/

/-- Modelled from the spec: the selection algorithm as the spec's §4.2 (and
claim C1) words it — collect every eligible position across the whole 9×10
grid, then pick the smallest threshold *value* (absent threshold read as
100), breaking ties by lowest bar index, then lowest slot index.  Written
from the spec's words, to be compared with the source-derived
`SupportConfig.get_usable_slot_index`. -/
def selectSpec (c : SupportConfig) (ty : SlotType) (threshold : Option Nat)
    (usage : UsageMatrix) : Option (Nat × Nat) :=
  let cands := (List.range 9).flatMap (fun b =>
    ((List.range 10).filter (fun s => eligibleB c ty threshold usage b s)).map
      (fun s => (b, s)))
  match cands with
  | [] => none
  | x :: xs => some (xs.foldl (fun acc y =>
      if (slotAtD c y.1 y.2).slot_threshold.getD 100 <
          (slotAtD c acc.1 acc.2).slot_threshold.getD 100 then y else acc) x)

/-! ### Example inputs shared by witnesses and counterexamples -/

/-- A bar holding the given slots padded with default (Unused) slots to the
fixed width of 10. -/
def mkBarOf (ss : List Slot) : SlotBar :=
  { slots := some (ss ++ List.replicate (10 - ss.length) Slot.defaultSlot) }

/-- A usage matrix whose only entry records slot `(0,0)` as used at
instant 0. -/
def exM00 : UsageMatrix := setU emptyUsage 0 0 (some 0)

/-- An enabled Pill slot whose configured cooldown is 0 ms. -/
def exZeroSlot : Slot :=
  { slot_type := SlotType.Pill, slot_cooldown := some 0
    slot_threshold := none, slot_enabled := true }

/-- Configuration whose slot `(0,0)` has a configured cooldown of 0 ms. -/
def exCfgZero : SupportConfig :=
  { slot_bars := some (mkBarOf [exZeroSlot] :: List.replicate 8 SlotBar.defaultBar) }

/-- Configuration whose first bar's slot array is absent. -/
def exCfgBad : SupportConfig :=
  { slot_bars := some ({ slots := none } :: List.replicate 8 SlotBar.defaultBar) }

/-- Enabled Pill slots with thresholds 50 (bar 0) and 10 (bar 1). -/
def exCfgTwoBars : SupportConfig :=
  { slot_bars := some
      ([mkBarOf [{ slot_type := SlotType.Pill, slot_cooldown := none
                   slot_threshold := some 50, slot_enabled := true }],
        mkBarOf [{ slot_type := SlotType.Pill, slot_cooldown := none
                   slot_threshold := some 10, slot_enabled := true }]]
        ++ List.replicate 7 SlotBar.defaultBar) }

/-- Configuration with an enabled, threshold-free RezSkill slot at `(3,5)`
(spec §8 example scenario 2). -/
def exCfgRez : SupportConfig :=
  { slot_bars := some
      (List.replicate 3 SlotBar.defaultBar
        ++ [mkBarOf (List.replicate 5 Slot.defaultSlot
              ++ [{ slot_type := SlotType.RezSkill, slot_cooldown := none
                    slot_threshold := none, slot_enabled := true }])]
        ++ List.replicate 5 SlotBar.defaultBar) }

/-- Configuration with an enabled, threshold-free BuffSkill slot at `(0,0)`. -/
def exCfgBuff : SupportConfig :=
  { slot_bars := some
      (mkBarOf [{ slot_type := SlotType.BuffSkill, slot_cooldown := none
                  slot_threshold := none, slot_enabled := true }]
        :: List.replicate 8 SlotBar.defaultBar) }

/-- Snapshot of a dead target with a visible marker. -/
def exImgDead : ImageSnapshot :=
  { client_stats := { hp := 50, mp := 0, fp := 0, target_hp := 0 }
    target_marker := some 0, marker_distance := 0 }

/-- Snapshot of a live target whose marker is far away (distance 250). -/
def exImgFar : ImageSnapshot :=
  { client_stats := { hp := 0, mp := 0, fp := 0, target_hp := 1 }
    target_marker := some 0, marker_distance := 250 }

/-- Snapshot of a live target with no visible marker. -/
def exImgNoMarker : ImageSnapshot :=
  { client_stats := { hp := 0, mp := 0, fp := 0, target_hp := 1 }
    target_marker := none, marker_distance := 0 }

/-- State after a fired buff check at instant 2001 (no usable slot). -/
def exStBuff : SupportBehavior :=
  { SupportBehavior.new 0 with last_buff_usage := 2001 }

/-- A behavior state currently tracking a far target (far-since = 5). -/
def exStFar9 : SupportBehavior :=
  { SupportBehavior.new 0 with last_far_from_target := some 5 }

/-- `exStFar9` after one circling macro (direction toggled to "A"). -/
def exStFar9' : SupportBehavior :=
  { exStFar9 with avoid_obstacle_direction := "A" }

/-- The trace of a far-target tick that triggers the circling macro. -/
def exC9Acts : List Action :=
  Action.sleepMs 100 :: circleActs "D"

/-! ### Cooldown sweep characterization -/

/-- The pure per-cell effect of the sweep: a present entry is cleared
exactly when strictly more than the effective cooldown has elapsed. -/
def sweepCellPure (c : SupportConfig) (now b s : Nat) (entry : Option Nat) :
    Option Nat :=
  match entry with
  | none => none
  | some t => if now - t > effCooldownD c b s then none else some t

theorem Slot.get_slot_cooldown_getD (s : Slot) :
    s.get_slot_cooldown.getD 100 = s.slot_cooldown.getD 100 := by
  cases h : s.slot_cooldown <;> simp [Slot.get_slot_cooldown, h]

theorem get_slot_cooldown_ok {c : SupportConfig} {b s : Nat} {cd : Option Nat}
    (h : c.get_slot_cooldown b s = Except.ok cd) :
    cd.getD 100 = effCooldownD c b s := by
  unfold SupportConfig.get_slot_cooldown SupportConfig.slotsAt SlotBar.slotsVec at h
  cases hb : (barAt c b).slots with
  | none => rw [hb] at h; cases h
  | some slots =>
    rw [hb] at h
    cases h
    unfold effCooldownD slotAtD
    rw [hb]
    simp [Slot.get_slot_cooldown_getD]

theorem sweepEntry_ok {c : SupportConfig} {now b s : Nat} {e e' : Option Nat}
    (h : sweepEntry c now b s e = Except.ok e') :
    e' = sweepCellPure c now b s e := by
  unfold sweepEntry at h
  cases hcd : c.get_slot_cooldown b s with
  | error err => rw [hcd] at h; cases h
  | ok cd =>
    rw [hcd] at h
    dsimp only at h
    have hk := get_slot_cooldown_ok hcd
    cases e with
    | none => cases h; rfl
    | some t =>
      dsimp only at h
      dsimp only [sweepCellPure]
      rw [← hk]
      by_cases hgt : now - t > cd.getD 100
      · rw [if_pos hgt] at h
        cases h
        rw [if_pos hgt]
      · rw [if_neg hgt] at h
        cases h
        rw [if_neg hgt]

theorem sweepRow_ok_getD {c : SupportConfig} {now b : Nat} :
    ∀ (row : List (Option Nat)) (j : Nat) (row' : List (Option Nat)),
    sweepRow c now b j row = Except.ok row' →
    ∀ k, row'.getD k none = sweepCellPure c now b (j + k) (row.getD k none) := by
  intro row
  induction row with
  | nil =>
    intro j row' h k
    cases h
    rfl
  | cons e es ih =>
    intro j row' h k
    unfold sweepRow at h
    cases he : sweepEntry c now b j e with
    | error err => rw [he] at h; cases h
    | ok e' =>
      rw [he] at h
      cases hes : sweepRow c now b (j + 1) es with
      | error err => rw [hes] at h; cases h
      | ok es' =>
        rw [hes] at h
        cases h
        cases k with
        | zero => simpa using sweepEntry_ok he
        | succ k =>
          have harith : j + (k + 1) = (j + 1) + k := by omega
          rw [harith]
          simpa using ih (j + 1) es' hes k

theorem sweepRows_ok_getD {c : SupportConfig} {now : Nat} :
    ∀ (rows : List (List (Option Nat))) (i : Nat) (rows' : UsageMatrix),
    sweepRows c now i rows = Except.ok rows' →
    ∀ k s, (rows'.getD k []).getD s none
      = sweepCellPure c now (i + k) s ((rows.getD k []).getD s none) := by
  intro rows
  induction rows with
  | nil =>
    intro i rows' h k s
    cases h
    rfl
  | cons row rest ih =>
    intro i rows' h k s
    unfold sweepRows at h
    cases hr : sweepRow c now i 0 row with
    | error err => rw [hr] at h; cases h
    | ok row' =>
      rw [hr] at h
      cases hrest : sweepRows c now (i + 1) rest with
      | error err => rw [hrest] at h; cases h
      | ok rest' =>
        rw [hrest] at h
        cases h
        cases k with
        | zero => simpa using sweepRow_ok_getD row 0 row' hr s
        | succ k =>
          have harith : i + (k + 1) = (i + 1) + k := by omega
          rw [harith]
          simpa using ih (i + 1) rest' hrest k s

theorem update_ok_getU {c : SupportConfig} {now : Nat} {usage m' : UsageMatrix}
    (h : SupportBehavior.update_slots_usage c now usage = Except.ok m') (b s : Nat) :
    getU m' b s = sweepCellPure c now b s (getU usage b s) := by
  simpa [getU] using sweepRows_ok_getD usage 0 m' h b s

/-! ### Absence of panics under well-formed configurations -/

theorem barAt_slots_isSome {c : SupportConfig} (h : wfConfig c) (b : Nat) :
    (barAt c b).slots.isSome := by
  unfold barAt
  by_cases hb : b < c.slot_barsVec.length
  · have hmem : c.slot_barsVec.getD b SlotBar.defaultBar ∈ c.slot_barsVec := by
      rw [List.getD_eq_getElem _ _ hb]
      exact List.getElem_mem hb
    exact h _ hmem
  · rw [List.getD_eq_default _ _ (by omega)]
    rfl

theorem slotsAt_ok {c : SupportConfig} (h : wfConfig c) (b : Nat) :
    ∃ slots, c.slotsAt b = Except.ok slots ∧ (barAt c b).slots = some slots := by
  have hs := barAt_slots_isSome h b
  cases hb : (barAt c b).slots with
  | none => rw [hb] at hs; cases hs
  | some slots =>
    exact ⟨slots, by simp [SupportConfig.slotsAt, SlotBar.slotsVec, hb], rfl⟩

theorem get_slot_cooldown_isOk {c : SupportConfig} (h : wfConfig c) (b s : Nat) :
    ∃ cd, c.get_slot_cooldown b s = Except.ok cd := by
  obtain ⟨slots, hok, -⟩ := slotsAt_ok h b
  refine ⟨(slots.getD s Slot.defaultSlot).get_slot_cooldown, ?_⟩
  simp [SupportConfig.get_slot_cooldown, hok]

theorem sweepEntry_isOk {c : SupportConfig} (h : wfConfig c) (now b s : Nat)
    (e : Option Nat) : ∃ e', sweepEntry c now b s e = Except.ok e' := by
  obtain ⟨cd, hcd⟩ := get_slot_cooldown_isOk h b s
  unfold sweepEntry
  rw [hcd]
  cases e with
  | none => exact ⟨none, rfl⟩
  | some t =>
    dsimp only
    by_cases hgt : now - t > cd.getD 100
    · exact ⟨none, by rw [if_pos hgt]⟩
    · exact ⟨some t, by rw [if_neg hgt]⟩

theorem sweepRow_isOk {c : SupportConfig} (h : wfConfig c) (now b : Nat) :
    ∀ (row : List (Option Nat)) (j : Nat),
    ∃ row', sweepRow c now b j row = Except.ok row' := by
  intro row
  induction row with
  | nil => exact fun j => ⟨[], rfl⟩
  | cons e es ih =>
    intro j
    obtain ⟨e', he⟩ := sweepEntry_isOk h now b j e
    obtain ⟨es', hes⟩ := ih (j + 1)
    exact ⟨e' :: es', by unfold sweepRow; rw [he, hes]⟩

theorem sweepRows_isOk {c : SupportConfig} (h : wfConfig c) (now : Nat) :
    ∀ (rows : List (List (Option Nat))) (i : Nat),
    ∃ rows', sweepRows c now i rows = Except.ok rows' := by
  intro rows
  induction rows with
  | nil => exact fun i => ⟨[], rfl⟩
  | cons row rest ih =>
    intro i
    obtain ⟨row', hr⟩ := sweepRow_isOk h now i row 0
    obtain ⟨rest', hrest⟩ := ih (i + 1)
    exact ⟨row' :: rest', by unfold sweepRows; rw [hr, hrest]⟩

theorem update_isOk {c : SupportConfig} (h : wfConfig c) (now : Nat)
    (usage : UsageMatrix) :
    ∃ m', SupportBehavior.update_slots_usage c now usage = Except.ok m' :=
  sweepRows_isOk h now usage 0

theorem bar_usable_isOk {bar : SlotBar} {slots : List Slot}
    (hs : bar.slots = some slots) (ty : SlotType) (th : Option Nat)
    (usage : UsageMatrix) (b : Nat) :
    ∃ r, bar.get_usable_slot_index ty th usage b = Except.ok r := by
  unfold SlotBar.get_usable_slot_index SlotBar.slotsVec
  rw [hs]
  exact ⟨_, rfl⟩

theorem findUsableAux_isOk {c : SupportConfig} (h : wfConfig c) (ty : SlotType)
    (th : Option Nat) (usage : UsageMatrix) :
    ∀ ns : List Nat, ∃ r, findUsableAux c ty th usage ns = Except.ok r := by
  intro ns
  induction ns with
  | nil => exact ⟨none, rfl⟩
  | cons n ns ih =>
    have hs := barAt_slots_isSome h n
    cases hb : (barAt c n).slots with
    | none => rw [hb] at hs; cases hs
    | some slots =>
      obtain ⟨r0, hr0⟩ := bar_usable_isOk hb ty th usage n
      cases r0 with
      | some r =>
        exact ⟨some r, by unfold findUsableAux; rw [hr0]⟩
      | none =>
        obtain ⟨r, hr⟩ := ih
        exact ⟨r, by unfold findUsableAux; rw [hr0, hr]⟩

theorem get_usable_isOk {c : SupportConfig} (h : wfConfig c) (ty : SlotType)
    (th : Option Nat) (usage : UsageMatrix) :
    ∃ r, c.get_usable_slot_index ty th usage = Except.ok r :=
  findUsableAux_isOk h ty th usage (List.range 9)

theorem get_slot_for_isOk {c : SupportConfig} (h : wfConfig c)
    (st : SupportBehavior) (th : Option Nat) (ty : SlotType) (send : Bool)
    (now : Nat) :
    ∃ r, st.get_slot_for c th ty send now = Except.ok r := by
  obtain ⟨r0, hr0⟩ := get_usable_isOk h ty th st.slots_usage_last_time
  unfold SupportBehavior.get_slot_for
  rw [hr0]
  cases r0 with
  | some slot_index => cases send <;> exact ⟨_, rfl⟩
  | none => exact ⟨_, rfl⟩

theorem check_buffs_isOk {c : SupportConfig} (h : wfConfig c)
    (st : SupportBehavior) (ibb now : Nat) :
    ∃ r, st.check_buffs c ibb now = Except.ok r := by
  unfold SupportBehavior.check_buffs
  by_cases hgt : now - st.last_buff_usage > ibb
  · rw [if_pos hgt]
    obtain ⟨⟨st2, acts, r⟩, hr⟩ := get_slot_for_isOk h { st with last_buff_usage := now } none SlotType.BuffSkill true now
    rw [hr]
    dsimp only
    exact ⟨_, rfl⟩
  · rw [if_neg hgt]
    exact ⟨_, rfl⟩

theorem tryPillFood_isOk {c : SupportConfig} (h : wfConfig c)
    (st : SupportBehavior) (hp now : Nat) :
    ∃ r, st.tryPillFood c hp now = Except.ok r := by
  unfold SupportBehavior.tryPillFood
  obtain ⟨⟨sa, aa, ra⟩, hra⟩ := get_slot_for_isOk h st (some hp) SlotType.Pill true now
  rw [hra]
  dsimp only
  by_cases hnone : ra.isNone
  · rw [if_pos hnone]
    obtain ⟨⟨sb, ab, rb⟩, hrb⟩ := get_slot_for_isOk h sa (some hp) SlotType.Food true now
    rw [hrb]
    exact ⟨_, rfl⟩
  · rw [if_neg hnone]
    exact ⟨_, rfl⟩

theorem tryStat_isOk {c : SupportConfig} (h : wfConfig c)
    (st : SupportBehavior) (ty : SlotType) (v now : Nat) :
    ∃ r, st.tryStat c ty v now = Except.ok r := by
  unfold SupportBehavior.tryStat
  obtain ⟨⟨sa, aa, ra⟩, hra⟩ := get_slot_for_isOk h st (some v) ty true now
  rw [hra]
  exact ⟨_, rfl⟩

theorem check_restorations_isOk {c : SupportConfig} (h : wfConfig c)
    (st : SupportBehavior) (stats : ClientStats) (now : Nat) :
    ∃ r, st.check_restorations c stats now = Except.ok r := by
  unfold SupportBehavior.check_restorations
  have block1 : ∃ r1, (if stats.hp > 0 then st.tryPillFood c stats.hp now else Except.ok (st, [])) = Except.ok r1 := by
    by_cases h1 : stats.hp > 0
    · rw [if_pos h1]; exact tryPillFood_isOk h st stats.hp now
    · rw [if_neg h1]; exact ⟨_, rfl⟩
  obtain ⟨⟨st1, acts1⟩, h1⟩ := block1
  rw [h1]
  dsimp only
  have block2 : ∃ r2, (if stats.target_hp > 0 then st1.tryStat c SlotType.HealSkill stats.target_hp now else Except.ok (st1, [])) = Except.ok r2 := by
    by_cases h2 : stats.target_hp > 0
    · rw [if_pos h2]; exact tryStat_isOk h st1 SlotType.HealSkill stats.target_hp now
    · rw [if_neg h2]; exact ⟨_, rfl⟩
  obtain ⟨⟨st2, acts2⟩, h2⟩ := block2
  rw [h2]
  dsimp only
  have block3 : ∃ r3, (if stats.mp > 0 then st2.tryStat c SlotType.MpRestorer stats.mp now else Except.ok (st2, [])) = Except.ok r3 := by
    by_cases h3 : stats.mp > 0
    · rw [if_pos h3]; exact tryStat_isOk h st2 SlotType.MpRestorer stats.mp now
    · rw [if_neg h3]; exact ⟨_, rfl⟩
  obtain ⟨⟨st3, acts3⟩, h3⟩ := block3
  rw [h3]
  dsimp only
  have block4 : ∃ r4, (if stats.fp > 0 then st3.tryStat c SlotType.FpRestorer stats.fp now else Except.ok (st3, [])) = Except.ok r4 := by
    by_cases h4 : stats.fp > 0
    · rw [if_pos h4]; exact tryStat_isOk h st3 SlotType.FpRestorer stats.fp now
    · rw [if_neg h4]; exact ⟨_, rfl⟩
  obtain ⟨⟨st4, acts4⟩, h4⟩ := block4
  rw [h4]
  exact ⟨_, rfl⟩

theorem engagement_isOk {c : SupportConfig} (h : wfConfig c)
    (st1 : SupportBehavior) (ibb oac : Nat) (image : ImageSnapshot) (now : Nat) :
    ∃ r, st1.engagement ibb oac c image now = Except.ok r := by
  unfold SupportBehavior.engagement
  by_cases hthp : image.client_stats.target_hp > 0
  · rw [if_pos hthp]
    cases image.target_marker with
    | some m =>
      dsimp only
      by_cases hd : image.marker_distance > 200
      · rw [if_pos hd]; exact ⟨_, rfl⟩
      · rw [if_neg hd]
        exact check_buffs_isOk h _ ibb now
    | none => exact ⟨_, rfl⟩
  · rw [if_neg hthp]
    exact ⟨_, rfl⟩

theorem run_iteration_isOk {c : SupportConfig} (h : wfConfig c)
    (st : SupportBehavior) (ibb oac : Nat) (image : ImageSnapshot) (now : Nat) :
    ∃ r, st.run_iteration ibb oac c image now = Except.ok r := by
  unfold SupportBehavior.run_iteration
  obtain ⟨usage, hu⟩ := update_isOk h now st.slots_usage_last_time
  rw [hu]
  dsimp only
  by_cases hdead : image.client_stats.target_hp = 0 ∧ image.target_marker.isSome
  · rw [if_pos hdead]
    obtain ⟨⟨st1, acts, r⟩, hr⟩ := get_slot_for_isOk h { st with slots_usage_last_time := usage } none SlotType.RezSkill true now
    rw [hr]
    exact ⟨_, rfl⟩
  · rw [if_neg hdead]
    obtain ⟨⟨st1, restoActs⟩, hresto⟩ := check_restorations_isOk h { st with slots_usage_last_time := usage } image.client_stats now
    rw [hresto]
    dsimp only
    obtain ⟨⟨st2, engActs⟩, heng⟩ := engagement_isOk h st1 ibb oac image now
    rw [heng]
    exact ⟨_, rfl⟩

/-! ### Selection characterization -/

theorem mem_candidatesAux (ty : SlotType) (th : Option Nat) (usage : UsageMatrix)
    (b : Nat) :
    ∀ (l : List Slot) (j i : Nat) (s : Slot),
    ((i, s) ∈ candidatesAux ty th usage b j l)
      ↔ ∃ k, i = j + k ∧ l.get? k = some s ∧ slotOk ty th usage b i s = true := by
  intro l
  induction l with
  | nil =>
    intro j i s
    simp [candidatesAux]
  | cons x xs ih =>
    intro j i s
    unfold candidatesAux
    by_cases hx : slotOk ty th usage b j x = true
    · rw [if_pos hx]
      constructor
      · intro hmem
        rcases List.mem_cons.mp hmem with heq | htail
        · have hi : i = j := congrArg Prod.fst heq
          have hs : s = x := congrArg Prod.snd heq
          refine ⟨0, by omega, by simp [hs], ?_⟩
          rw [hi, hs]
          exact hx
        · obtain ⟨k, hik, hg, hok⟩ := (ih (j + 1) i s).mp htail
          exact ⟨k + 1, by omega, by simpa using hg, hok⟩
      · rintro ⟨k, hik, hg, hok⟩
        cases k with
        | zero =>
          have hs : x = s := by simpa using hg
          have hij : i = j := by omega
          exact List.mem_cons.mpr (Or.inl (by rw [hij, hs]))
        | succ k =>
          exact List.mem_cons.mpr (Or.inr ((ih (j + 1) i s).mpr
            ⟨k, by omega, by simpa using hg, hok⟩))
    · rw [if_neg hx]
      constructor
      · intro hmem
        obtain ⟨k, hik, hg, hok⟩ := (ih (j + 1) i s).mp hmem
        exact ⟨k + 1, by omega, by simpa using hg, hok⟩
      · rintro ⟨k, hik, hg, hok⟩
        cases k with
        | zero =>
          exfalso
          have hs : x = s := by simpa using hg
          have hij : i = j := by omega
          rw [hij, ← hs] at hok
          exact hx hok
        | succ k =>
          exact (ih (j + 1) i s).mpr ⟨k, by omega, by simpa using hg, hok⟩

theorem candidatesAux_lb (ty : SlotType) (th : Option Nat) (usage : UsageMatrix)
    (b : Nat) (l : List Slot) (j : Nat) (p : Nat × Slot)
    (hp : p ∈ candidatesAux ty th usage b j l) : j ≤ p.1 := by
  obtain ⟨i, s⟩ := p
  obtain ⟨k, hk, -, -⟩ := (mem_candidatesAux ty th usage b l j i s).mp hp
  omega

theorem candidatesAux_pairwise (ty : SlotType) (th : Option Nat)
    (usage : UsageMatrix) (b : Nat) :
    ∀ (l : List Slot) (j : Nat),
    List.Pairwise (fun p q => p.1 < q.1) (candidatesAux ty th usage b j l) := by
  intro l
  induction l with
  | nil =>
    intro j
    simp [candidatesAux]
  | cons x xs ih =>
    intro j
    unfold candidatesAux
    by_cases hx : slotOk ty th usage b j x = true
    · rw [if_pos hx]
      refine List.pairwise_cons.mpr ⟨?_, ih (j + 1)⟩
      intro q hq
      have := candidatesAux_lb ty th usage b xs (j + 1) q hq
      simp only
      omega
    · rw [if_neg hx]
      exact ih (j + 1)

theorem cmpOption_gt_iff (a b : Option Nat) :
    (cmpOption a b = Ordering.gt) ↔ toKey b < toKey a := by
  cases a <;> cases b <;>
    simp [cmpOption, toKey, Nat.compare_eq_gt]

theorem minStep_cases (x y : Nat × Slot) :
    (tkp y < tkp x ∧ minStep x y = y) ∨ (tkp x ≤ tkp y ∧ minStep x y = x) := by
  unfold minStep tkp
  by_cases hgt : cmpOption x.2.slot_threshold y.2.slot_threshold = Ordering.gt
  · exact Or.inl ⟨(cmpOption_gt_iff _ _).mp hgt, by rw [if_pos hgt]⟩
  · refine Or.inr ⟨?_, by rw [if_neg hgt]⟩
    have h2 := (cmpOption_gt_iff x.2.slot_threshold y.2.slot_threshold).not.mp hgt
    omega

theorem foldl_minStep_spec :
    ∀ (xs : List (Nat × Slot)) (x : Nat × Slot),
    List.Pairwise (fun p q => p.1 < q.1) (x :: xs) →
    (xs.foldl minStep x ∈ x :: xs)
    ∧ (∀ y ∈ x :: xs, tkp (xs.foldl minStep x) ≤ tkp y)
    ∧ (∀ y ∈ x :: xs, tkp y = tkp (xs.foldl minStep x) → (xs.foldl minStep x).1 ≤ y.1) := by
  intro xs
  induction xs with
  | nil =>
    intro x _
    refine ⟨List.mem_singleton.mpr rfl, ?_, ?_⟩
    · intro y hy
      rw [List.mem_singleton.mp hy]
      exact le_refl _
    · intro y hy _
      rw [List.mem_singleton.mp hy]
      exact le_refl _
  | cons y ys ih =>
    intro x hp
    rw [List.foldl_cons]
    have hxy : x.1 < y.1 := (List.pairwise_cons.mp hp).1 y (List.mem_cons_self _ _)
    have hpyys := (List.pairwise_cons.mp hp).2
    have hpy := List.pairwise_cons.mp hpyys
    have hstep := minStep_cases x y
    have hp' : List.Pairwise (fun p q => p.1 < q.1) (minStep x y :: ys) := by
      refine List.pairwise_cons.mpr ⟨?_, hpy.2⟩
      intro q hq
      rcases hstep with ⟨-, h⟩ | ⟨-, h⟩ <;> rw [h]
      · exact hpy.1 q hq
      · exact lt_trans hxy (hpy.1 q hq)
    obtain ⟨hmem, hmin, hfirst⟩ := ih (minStep x y) hp'
    set r := ys.foldl minStep (minStep x y) with hrdef
    have hr_le_step : tkp r ≤ tkp (minStep x y) := hmin _ (List.mem_cons_self _ _)
    have hrx : tkp r ≤ tkp x := by
      rcases hstep with ⟨hlt, h⟩ | ⟨hle, h⟩
      · rw [h] at hr_le_step
        omega
      · rw [h] at hr_le_step
        exact hr_le_step
    have hry : tkp r ≤ tkp y := by
      rcases hstep with ⟨hlt, h⟩ | ⟨hle, h⟩
      · rw [h] at hr_le_step
        exact hr_le_step
      · rw [h] at hr_le_step
        omega
    refine ⟨?_, ?_, ?_⟩
    · rcases List.mem_cons.mp hmem with hr1 | hr1
      · rcases hstep with ⟨-, h⟩ | ⟨-, h⟩
        · rw [hr1.trans h]
          exact List.mem_cons.mpr (Or.inr (List.mem_cons_self _ _))
        · rw [hr1.trans h]
          exact List.mem_cons_self _ _
      · exact List.mem_cons.mpr (Or.inr (List.mem_cons.mpr (Or.inr hr1)))
    · intro z hz
      rcases List.mem_cons.mp hz with hzx | hz'
      · rw [hzx]
        exact hrx
      · rcases List.mem_cons.mp hz' with hzy | hz''
        · rw [hzy]
          exact hry
        · exact hmin z (List.mem_cons.mpr (Or.inr hz''))
    · intro z hz heq
      rcases List.mem_cons.mp hz with hzx | hz'
      · rcases hstep with ⟨hlt, h⟩ | ⟨hle, h⟩
        · exfalso
          have h1 : tkp z = tkp x := by rw [hzx]
          omega
        · have hxmem : x ∈ minStep x y :: ys := by
            rw [h]
            exact List.mem_cons_self _ _
          have hres := hfirst x hxmem (by rw [← hzx]; exact heq)
          rw [hzx]
          exact hres
      · rcases List.mem_cons.mp hz' with hzy | hz''
        · rcases hstep with ⟨hlt, h⟩ | ⟨hle, h⟩
          · have hymem : y ∈ minStep x y :: ys := by
              rw [h]
              exact List.mem_cons_self _ _
            have hres := hfirst y hymem (by rw [← hzy]; exact heq)
            rw [hzy]
            exact hres
          · have h1 : tkp z = tkp y := by rw [hzy]
            have hxr : tkp x = tkp r := by omega
            have hxmem : x ∈ minStep x y :: ys := by
              rw [h]
              exact List.mem_cons_self _ _
            have h2 := hfirst x hxmem hxr
            rw [hzy]
            omega
        · exact hfirst z (List.mem_cons.mpr (Or.inr hz'')) heq

theorem getD_of_get? {l : List Slot} {n : Nat} {v : Slot}
    (h : l.get? n = some v) (d : Slot) : l.getD n d = v := by
  rw [List.getD_eq_getElem?_getD, ← List.get?_eq_getElem?, h]
  rfl

theorem slotEligible_iff {slots : List Slot} {ty : SlotType} {th : Option Nat}
    {usage : UsageMatrix} {b s : Nat} :
    slotEligible slots ty th usage b s = true
      ↔ ∃ slot, slots.get? s = some slot ∧ slotOk ty th usage b s slot = true := by
  unfold slotEligible
  cases h : slots.get? s <;> simp [h]

theorem bar_ok_slots {bar : SlotBar} {ty : SlotType} {th : Option Nat}
    {usage : UsageMatrix} {b : Nat} {r : Option (Nat × Nat)}
    (h : bar.get_usable_slot_index ty th usage b = Except.ok r) :
    ∃ slots, bar.slots = some slots := by
  unfold SlotBar.get_usable_slot_index SlotBar.slotsVec at h
  cases hs : bar.slots with
  | none => rw [hs] at h; cases h
  | some slots => exact ⟨slots, rfl⟩

theorem bar_some_fst {bar : SlotBar} {ty : SlotType} {th : Option Nat}
    {usage : UsageMatrix} {n bb s : Nat}
    (h : bar.get_usable_slot_index ty th usage n = Except.ok (some (bb, s))) :
    bb = n := by
  unfold SlotBar.get_usable_slot_index SlotBar.slotsVec at h
  cases hs : bar.slots with
  | none => rw [hs] at h; cases h
  | some slots =>
    rw [hs] at h
    dsimp only at h
    cases hmb : rustMinBy (candidatesAux ty th usage n 0 slots) with
    | none => rw [hmb] at h; cases h
    | some p =>
      rw [hmb] at h
      dsimp only [Option.map] at h
      cases h
      rfl

theorem bar_select_some {bar : SlotBar} {slots : List Slot} {ty : SlotType}
    {th : Option Nat} {usage : UsageMatrix} {b bb s : Nat}
    (hs : bar.slots = some slots)
    (h : bar.get_usable_slot_index ty th usage b = Except.ok (some (bb, s))) :
    bb = b
    ∧ slotEligible slots ty th usage b s = true
    ∧ ∀ s', slotEligible slots ty th usage b s' = true →
        keyAt slots s ≤ keyAt slots s' ∧ (keyAt slots s' = keyAt slots s → s ≤ s') := by
  unfold SlotBar.get_usable_slot_index SlotBar.slotsVec at h
  rw [hs] at h
  dsimp only at h
  cases hmb : rustMinBy (candidatesAux ty th usage b 0 slots) with
  | none => rw [hmb] at h; cases h
  | some p =>
    rw [hmb] at h
    dsimp only [Option.map] at h
    cases h
    -- now bb = b and s = p.1
    unfold rustMinBy at hmb
    cases hcands : candidatesAux ty th usage b 0 slots with
    | nil => rw [hcands] at hmb; cases hmb
    | cons x xs =>
      rw [hcands] at hmb
      have hpfold : xs.foldl minStep x = p := by
        injection hmb
      have hpw : List.Pairwise (fun p q => p.1 < q.1) (x :: xs) := by
        rw [← hcands]
        exact candidatesAux_pairwise ty th usage b slots 0
      obtain ⟨hmem, hmin, hfirst⟩ := foldl_minStep_spec xs x hpw
      rw [hpfold] at hmem hmin hfirst
      rw [← hcands] at hmem
      have hpZ := (mem_candidatesAux ty th usage b slots 0 p.1 p.2).mp hmem
      obtain ⟨k, hk, hget, hok⟩ := hpZ
      have hkp : k = p.1 := by omega
      rw [hkp] at hget
      have hkeyp : keyAt slots p.1 = tkp p := by
        unfold keyAt tkp
        rw [getD_of_get? hget]
      refine ⟨rfl, ?_, ?_⟩
      · exact slotEligible_iff.mpr ⟨p.2, hget, hok⟩
      · intro s' helig'
        obtain ⟨slot', hget', hok'⟩ := slotEligible_iff.mp helig'
        have hmem' : (s', slot') ∈ candidatesAux ty th usage b 0 slots :=
          (mem_candidatesAux ty th usage b slots 0 s' slot').mpr
            ⟨s', by omega, hget', hok'⟩
        rw [hcands] at hmem'
        have hkey' : keyAt slots s' = tkp (s', slot') := by
          unfold keyAt tkp
          rw [getD_of_get? hget']
        constructor
        · rw [hkeyp, hkey']
          exact hmin (s', slot') hmem'
        · intro heq
          have := hfirst (s', slot') hmem' (by rw [← hkey', ← hkeyp]; exact heq)
          exact this

theorem bar_select_none {bar : SlotBar} {slots : List Slot} {ty : SlotType}
    {th : Option Nat} {usage : UsageMatrix} {b : Nat}
    (hs : bar.slots = some slots)
    (h : bar.get_usable_slot_index ty th usage b = Except.ok none) :
    ∀ s', slotEligible slots ty th usage b s' = false := by
  unfold SlotBar.get_usable_slot_index SlotBar.slotsVec at h
  rw [hs] at h
  dsimp only at h
  cases hmb : rustMinBy (candidatesAux ty th usage b 0 slots) with
  | some p => rw [hmb] at h; dsimp only [Option.map] at h; cases h
  | none =>
    unfold rustMinBy at hmb
    cases hcands : candidatesAux ty th usage b 0 slots with
    | cons x xs => rw [hcands] at hmb; cases hmb
    | nil =>
      intro s'
      by_contra hne
      have helig : slotEligible slots ty th usage b s' = true := by
        cases hb : slotEligible slots ty th usage b s'
        · exact absurd hb hne
        · rfl
      obtain ⟨slot', hget', hok'⟩ := slotEligible_iff.mp helig
      have hmem' : (s', slot') ∈ candidatesAux ty th usage b 0 slots :=
        (mem_candidatesAux ty th usage b slots 0 s' slot').mpr
          ⟨s', by omega, hget', hok'⟩
      rw [hcands] at hmem'
      cases hmem'

theorem findUsableAux_some {c : SupportConfig} {ty : SlotType} {th : Option Nat}
    {usage : UsageMatrix} :
    ∀ (ns : List Nat), List.Pairwise (· < ·) ns →
    ∀ bb s, findUsableAux c ty th usage ns = Except.ok (some (bb, s)) →
    bb ∈ ns
    ∧ (barAt c bb).get_usable_slot_index ty th usage bb = Except.ok (some (bb, s))
    ∧ ∀ n ∈ ns, n < bb →
        (barAt c n).get_usable_slot_index ty th usage n = Except.ok none := by
  intro ns
  induction ns with
  | nil =>
    intro _ bb s h
    cases h
  | cons n ns ih =>
    intro hp bb s h
    unfold findUsableAux at h
    cases hb : (barAt c n).get_usable_slot_index ty th usage n with
    | error e => rw [hb] at h; cases h
    | ok r0 =>
      rw [hb] at h
      cases r0 with
      | some r =>
        dsimp only at h
        cases h
        have hfst : bb = n := bar_some_fst hb
        subst hfst
        refine ⟨List.mem_cons_self _ _, hb, ?_⟩
        intro m hm hlt
        rcases List.mem_cons.mp hm with hmn | hmns
        · omega
        · have := (List.pairwise_cons.mp hp).1 m hmns
          omega
      | none =>
        dsimp only at h
        obtain ⟨hmem, hbb, hprev⟩ := ih (List.pairwise_cons.mp hp).2 bb s h
        refine ⟨List.mem_cons.mpr (Or.inr hmem), hbb, ?_⟩
        intro m hm hlt
        rcases List.mem_cons.mp hm with hmn | hmns
        · rw [hmn]
          exact hb
        · exact hprev m hmns hlt

theorem findUsableAux_none {c : SupportConfig} {ty : SlotType} {th : Option Nat}
    {usage : UsageMatrix} :
    ∀ (ns : List Nat), findUsableAux c ty th usage ns = Except.ok none →
    ∀ n ∈ ns, (barAt c n).get_usable_slot_index ty th usage n = Except.ok none := by
  intro ns
  induction ns with
  | nil =>
    intro _ n hn
    cases hn
  | cons m ns ih =>
    intro h n hn
    unfold findUsableAux at h
    cases hb : (barAt c m).get_usable_slot_index ty th usage m with
    | error e => rw [hb] at h; cases h
    | ok r0 =>
      rw [hb] at h
      cases r0 with
      | some r => dsimp only at h; cases h
      | none =>
        dsimp only at h
        rcases List.mem_cons.mp hn with hnm | hnns
        · rw [hnm]
          exact hb
        · exact ih h n hnns

theorem eligibleB_eq_slotEligible {c : SupportConfig} {slots : List Slot}
    {ty : SlotType} {th : Option Nat} {usage : UsageMatrix} {b : Nat}
    (hs : (barAt c b).slots = some slots) (s : Nat) :
    eligibleB c ty th usage b s = slotEligible slots ty th usage b s := by
  unfold eligibleB
  rw [hs]

theorem tkey_eq_keyAt {c : SupportConfig} {slots : List Slot} {b : Nat}
    (hs : (barAt c b).slots = some slots) (s : Nat) :
    tkey c b s = keyAt slots s := by
  unfold tkey slotAtD keyAt
  rw [hs]
  rfl

theorem barHasEligible_false {c : SupportConfig} {slots : List Slot}
    {ty : SlotType} {th : Option Nat} {usage : UsageMatrix} {b : Nat}
    (hs : (barAt c b).slots = some slots)
    (h : ∀ s', slotEligible slots ty th usage b s' = false) :
    barHasEligible c ty th usage b = false := by
  unfold barHasEligible
  rw [List.any_eq_false]
  intro s' _
  rw [eligibleB_eq_slotEligible hs s', h s']
  exact Bool.false_ne_true

/-! ### Claim C3 -/

/-- Claim C3, amended: for every slot position whose cooldown-matrix entry
is present, with effective cooldown `c` (the slot's configured cooldown, or
100 ms if unset), the per-tick sweep clears the entry once the elapsed time
since last use is *strictly greater* than `c` (at elapsed = `c` exactly the
entry remains), leaves the entry present while elapsed ≤ `c`, and absent
entries stay absent. -/
theorem c3_cooldown_sweep (c : SupportConfig) (now : Nat) (usage m' : UsageMatrix)
    (b s : Nat) (h : SupportBehavior.update_slots_usage c now usage = Except.ok m') :
    getU m' b s = (match getU usage b s with
      | none => none
      | some t => if now - t > effCooldownD c b s then none else some t) :=
  update_ok_getU h b s

/-- Counterexample to claim C3 as stated: slot `(0,0)` of the default
configuration has the default 100 ms cooldown and was used at instant 0; at
`now = 100` the elapsed time equals the cooldown, so the claim ("cleared
once elapsed ≥ c") demands the entry be cleared, but the sweep keeps it
(the source clears only on elapsed strictly greater than the cooldown). -/
theorem c3_counterexample :
    Except.map (fun m => getU m 0 0)
        (SupportBehavior.update_slots_usage SupportConfig.defaultConfig 100 exM00)
      = Except.ok (some 0)
    ∧ getU exM00 0 0 = some 0
    ∧ effCooldownD SupportConfig.defaultConfig 0 0 = 100 :=
  ⟨rfl, rfl, rfl⟩

/-- Witness for `c3_cooldown_sweep` at a concrete input: sweeping the
matrix whose `(0,0)` entry is 0 at `now = 150` under the default
configuration yields the empty matrix. -/
theorem c3_cooldown_sweep_witness :
    getU emptyUsage 0 0 = (match getU exM00 0 0 with
      | none => none
      | some t => if (150 : Nat) - t > effCooldownD SupportConfig.defaultConfig 0 0
          then none else some t) :=
  c3_cooldown_sweep SupportConfig.defaultConfig 150 exM00 emptyUsage 0 0 rfl

/-! ### Claim C6 -/

/-- Claim C6, amended: the cooldown sweep never panics on account of a
cooldown *value* (under a well-formed configuration it never panics at
all, and the `u32` type admits no negative or unparsable cooldown); an
unset cooldown is treated as the 100 ms default, but a configured cooldown
of 0 is used as 0 — the entry at `(b, s)` is cleared exactly when the
elapsed time strictly exceeds `(slotAtD c b s).slot_cooldown.getD 100`. -/
theorem c6_cooldown_default (c : SupportConfig) (now : Nat) (usage m' : UsageMatrix)
    (b s t : Nat) (hwf : wfConfig c) :
    (SupportBehavior.update_slots_usage c now usage).isOk = true
    ∧ (SupportBehavior.update_slots_usage c now usage = Except.ok m' →
       getU usage b s = some t →
       getU m' b s = if now - t > (slotAtD c b s).slot_cooldown.getD 100
         then none else some t) := by
  constructor
  · obtain ⟨m, hm⟩ := update_isOk hwf now usage
    rw [hm]
    rfl
  · intro h ht
    have hcell := update_ok_getU h b s
    rw [ht] at hcell
    exact hcell

/-- Counterexample to claim C6 as stated: slot `(0,0)` is configured with
cooldown 0; its entry was recorded at instant 0 and at `now = 50` the sweep
clears it (50 > 0), whereas the claim ("a configured cooldown of 0 is
treated as the 100 ms default") demands the entry remain (50 < 100). -/
theorem c6_counterexample :
    (slotAtD exCfgZero 0 0).slot_cooldown = some 0
    ∧ Except.map (fun m => getU m 0 0)
        (SupportBehavior.update_slots_usage exCfgZero 50 exM00) = Except.ok none :=
  ⟨rfl, rfl⟩

/-- Witness for `c6_cooldown_default` at a concrete input. -/
theorem c6_cooldown_default_witness :
    (SupportBehavior.update_slots_usage SupportConfig.defaultConfig 150 exM00).isOk = true
    ∧ (SupportBehavior.update_slots_usage SupportConfig.defaultConfig 150 exM00 = Except.ok emptyUsage →
       getU exM00 0 0 = some 0 →
       getU emptyUsage 0 0 = if (150 : Nat) - 0 > (slotAtD SupportConfig.defaultConfig 0 0).slot_cooldown.getD 100
         then none else some 0) :=
  c6_cooldown_default SupportConfig.defaultConfig 150 exM00 emptyUsage 0 0 0 (by decide)

/-! ### Claim C7 -/

/-- Claim C7, amended: no core operation (selection, sweep, dispatch, full
tick) panics for any configuration in which every slot bar has its slot
array present — which the configuration collaborator must guarantee (the
default object does).  The claim's stronger form, covering configurations
with an absent slot array, is refuted by `c7_counterexample`: there
`SlotBar::slots` panics on its `unwrap`. -/
theorem c7_no_fatal (c : SupportConfig) (ty : SlotType) (th : Option Nat)
    (usage : UsageMatrix) (now ibb oac : Nat) (image : ImageSnapshot)
    (st : SupportBehavior) (hwf : wfConfig c) :
    (c.get_usable_slot_index ty th usage).isOk = true
    ∧ (SupportBehavior.update_slots_usage c now usage).isOk = true
    ∧ (st.get_slot_for c th ty true now).isOk = true
    ∧ (st.run_iteration ibb oac c image now).isOk = true := by
  refine ⟨?_, ?_, ?_, ?_⟩
  · obtain ⟨r, hr⟩ := get_usable_isOk hwf ty th usage
    rw [hr]
    rfl
  · obtain ⟨m, hm⟩ := update_isOk hwf now usage
    rw [hm]
    rfl
  · obtain ⟨r, hr⟩ := get_slot_for_isOk hwf st th ty true now
    rw [hr]
    rfl
  · obtain ⟨r, hr⟩ := run_iteration_isOk hwf st ibb oac image now
    rw [hr]
    rfl

/-- Counterexample to claim C7 as stated: with the first bar's slot array
absent, slot selection panics (`Option::unwrap` on `None` inside
`SlotBar::slots`) instead of yielding `None`. -/
theorem c7_counterexample :
    exCfgBad.get_usable_slot_index SlotType.Pill none emptyUsage = Except.error ()
    ∧ (barAt exCfgBad 0).slots = none :=
  ⟨rfl, rfl⟩

/-- Witness for `c7_no_fatal` at a concrete input (the default
configuration, which is well-formed). -/
theorem c7_no_fatal_witness :
    (SupportConfig.defaultConfig.get_usable_slot_index SlotType.Pill none emptyUsage).isOk = true
    ∧ (SupportBehavior.update_slots_usage SupportConfig.defaultConfig 0 emptyUsage).isOk = true
    ∧ ((SupportBehavior.new 0).get_slot_for SupportConfig.defaultConfig none SlotType.Pill true 0).isOk = true
    ∧ ((SupportBehavior.new 0).run_iteration 0 0 SupportConfig.defaultConfig exImgNoMarker 0).isOk = true :=
  c7_no_fatal SupportConfig.defaultConfig SlotType.Pill none emptyUsage 0 0 0
    exImgNoMarker (SupportBehavior.new 0) (by decide)

/-! ### Claim C8 -/

/-- Claim C8, amended: stopping the behavior between ticks resets the
cooldown matrix (every entry cleared to `None`) but does *not* touch the
obstacle-avoidance state: the far-since timestamp, the turn direction and
the buff timer all survive into the next session. -/
theorem c8_stop_resets (st : SupportBehavior) :
    st.stop.slots_usage_last_time = emptyUsage
    ∧ st.stop.last_far_from_target = st.last_far_from_target
    ∧ st.stop.avoid_obstacle_direction = st.avoid_obstacle_direction
    ∧ st.stop.last_buff_usage = st.last_buff_usage :=
  ⟨rfl, rfl, rfl, rfl⟩

/-- Counterexample to claim C8 as stated: after `stop`, the far-since
timestamp is still `some 5`, not cleared to `None` as the claim demands. -/
theorem c8_counterexample :
    exStFar9.stop.last_far_from_target = some 5
    ∧ exStFar9.stop.last_far_from_target ≠ none :=
  ⟨rfl, by decide⟩

/-- Soundness of the grid selection (shared helper): a returned position
exists, matches the type, is enabled, passes the threshold gate and is
cooldown-free. -/
theorem usable_sound (c : SupportConfig) (ty : SlotType) (th : Option Nat)
    (usage : UsageMatrix) (b s : Nat)
    (h : c.get_usable_slot_index ty th usage = Except.ok (some (b, s))) :
    s < barLen c b
    ∧ (slotAtD c b s).slot_type = ty
    ∧ (slotAtD c b s).slot_enabled = true
    ∧ th.getD 0 ≤ (slotAtD c b s).slot_threshold.getD 100
    ∧ getU usage b s = none := by
  unfold SupportConfig.get_usable_slot_index at h
  obtain ⟨hmem, hbar, -⟩ :=
    findUsableAux_some (List.range 9) (List.pairwise_lt_range 9) b s h
  obtain ⟨slots, hsEq⟩ := bar_ok_slots hbar
  obtain ⟨-, helig, -⟩ := bar_select_some hsEq hbar
  obtain ⟨slot, hget, hok⟩ := slotEligible_iff.mp helig
  have hlt : s < slots.length := by
    obtain ⟨hl, -⟩ := List.get?_eq_some.mp hget
    exact hl
  have hAt : slotAtD c b s = slot := by
    unfold slotAtD
    rw [hsEq]
    exact getD_of_get? hget _
  have hlen : barLen c b = slots.length := by
    unfold barLen
    rw [hsEq]
    rfl
  unfold slotOk at hok
  simp only [Bool.and_eq_true, beq_iff_eq, decide_eq_true_eq,
    Option.isNone_iff_eq_none] at hok
  obtain ⟨⟨⟨hty, hen⟩, hth⟩, hu⟩ := hok
  rw [hAt, hlen]
  exact ⟨hlt, hty, hen, hth, hu⟩

/-! ### Claim C2 -/

/-- Claim C2: every position the selection function returns refers to a
slot that exists, has the requested slot type, is enabled, has no pending
entry in the cooldown matrix, and whose threshold (absent treated as 100)
is ≥ the stat value (absent treated as 0) — for every catalog, matrix,
type and stat value. -/
theorem c2_selection_sound (c : SupportConfig) (ty : SlotType) (th : Option Nat)
    (usage : UsageMatrix) (b s : Nat)
    (h : c.get_usable_slot_index ty th usage = Except.ok (some (b, s))) :
    s < barLen c b
    ∧ (slotAtD c b s).slot_type = ty
    ∧ (slotAtD c b s).slot_enabled = true
    ∧ th.getD 0 ≤ (slotAtD c b s).slot_threshold.getD 100
    ∧ getU usage b s = none :=
  usable_sound c ty th usage b s h

/-- Witness for `c2_selection_sound` at a concrete input: the default
configuration's bar 0 slot 0 (an enabled Unused slot) is selected for type
Unused, and satisfies all four eligibility conditions. -/
theorem c2_selection_sound_witness :
    (0 : Nat) < barLen SupportConfig.defaultConfig 0
    ∧ (slotAtD SupportConfig.defaultConfig 0 0).slot_type = SlotType.Unused
    ∧ (slotAtD SupportConfig.defaultConfig 0 0).slot_enabled = true
    ∧ (none : Option Nat).getD 0 ≤ (slotAtD SupportConfig.defaultConfig 0 0).slot_threshold.getD 100
    ∧ getU emptyUsage 0 0 = none :=
  c2_selection_sound SupportConfig.defaultConfig SlotType.Unused none emptyUsage 0 0 rfl

/-! ### Claim C1 -/

/-- Claim C1, amended: the selection scans bars in ascending index order
and returns a result from the *first bar containing an eligible match*
(it does not compare thresholds across bars); within that bar it returns
the eligible match whose `slot_threshold` is minimal under the `Option`
ordering its `min_by` uses (an absent threshold sorts *below* every
configured value), and among matches sharing that minimal threshold the
lowest slot index wins; it returns `None` exactly when no slot of any of
the nine bars is eligible. -/
theorem c1_selection (c : SupportConfig) (ty : SlotType) (th : Option Nat)
    (usage : UsageMatrix) (r : Option (Nat × Nat)) (b s : Nat)
    (h : c.get_usable_slot_index ty th usage = Except.ok r) :
    (r = some (b, s) →
      b < 9
      ∧ eligibleB c ty th usage b s = true
      ∧ noEligibleBefore c ty th usage b = true
      ∧ barMinimalAt c ty th usage b s = true)
    ∧ (r = none → noEligibleBefore c ty th usage 9 = true) := by
  unfold SupportConfig.get_usable_slot_index at h
  constructor
  · rintro rfl
    obtain ⟨hmem, hbar, hprev⟩ :=
      findUsableAux_some (List.range 9) (List.pairwise_lt_range 9) b s h
    have hb9 : b < 9 := List.mem_range.mp hmem
    obtain ⟨slots, hsEq⟩ := bar_ok_slots hbar
    obtain ⟨-, helig, hminimal⟩ := bar_select_some hsEq hbar
    refine ⟨hb9, ?_, ?_, ?_⟩
    · rw [eligibleB_eq_slotEligible hsEq]
      exact helig
    · unfold noEligibleBefore
      rw [List.all_eq_true]
      intro b' hb'
      have hb'lt : b' < b := List.mem_range.mp hb'
      have hb'9 : b' ∈ List.range 9 := List.mem_range.mpr (by omega)
      have hnone := hprev b' hb'9 hb'lt
      obtain ⟨slots', hs'⟩ := bar_ok_slots hnone
      have hfalse := barHasEligible_false hs' (bar_select_none hs' hnone)
      rw [hfalse]
      rfl
    · unfold barMinimalAt
      rw [List.all_eq_true]
      intro s' hsr'
      by_cases helig' : eligibleB c ty th usage b s' = true
      · have helig'' : slotEligible slots ty th usage b s' = true := by
          rw [← eligibleB_eq_slotEligible hsEq]
          exact helig'
        obtain ⟨hle, htie⟩ := hminimal s' helig''
        have hk : tkey c b s = keyAt slots s := tkey_eq_keyAt hsEq s
        have hk' : tkey c b s' = keyAt slots s' := tkey_eq_keyAt hsEq s'
        rcases lt_or_eq_of_le hle with hlt | heqk
        · have hdec : decide (tkey c b s < tkey c b s') = true := by
            rw [hk, hk']
            exact decide_eq_true hlt
          simp [hdec]
        · have h1 : tkey c b s = tkey c b s' := by
            rw [hk, hk', heqk]
          have h2 : s ≤ s' := htie heqk.symm
          simp [h1, h2]
      · have hfalse : eligibleB c ty th usage b s' = false := by
          cases hx : eligibleB c ty th usage b s'
          · rfl
          · exact absurd hx helig'
        simp [hfalse]
  · rintro rfl
    have hall := findUsableAux_none (List.range 9) h
    unfold noEligibleBefore
    rw [List.all_eq_true]
    intro b' hb'
    have hnone := hall b' hb'
    obtain ⟨slots', hs'⟩ := bar_ok_slots hnone
    have hfalse := barHasEligible_false hs' (bar_select_none hs' hnone)
    rw [hfalse]
    rfl

/-- Counterexample to claim C1 as stated: bar 0 holds an eligible Pill slot
with threshold 50, bar 1 an eligible Pill slot with threshold 10.  The
claim demands the position with the smallest threshold across the whole
grid — `(1, 0)`, as the spec-worded `selectSpec` computes — but the code
returns `(0, 0)`: the scan stops at the first bar containing any match. -/
theorem c1_counterexample :
    exCfgTwoBars.get_usable_slot_index SlotType.Pill none emptyUsage = Except.ok (some (0, 0))
    ∧ selectSpec exCfgTwoBars SlotType.Pill none emptyUsage = some (1, 0)
    ∧ (slotAtD exCfgTwoBars 0 0).slot_threshold = some 50
    ∧ (slotAtD exCfgTwoBars 1 0).slot_threshold = some 10
    ∧ eligibleB exCfgTwoBars SlotType.Pill none emptyUsage 1 0 = true :=
  ⟨rfl, rfl, rfl, rfl, rfl⟩

/-- Witness for `c1_selection` at a concrete input: on the default
configuration the selection for type Unused returns `(0, 0)`, which is
eligible, preceded by no bar with an eligible slot, and minimal within its
bar. -/
theorem c1_selection_witness :
    ((some ((0 : Nat), (0 : Nat)) : Option (Nat × Nat)) = some (0, 0) →
      (0 : Nat) < 9
      ∧ eligibleB SupportConfig.defaultConfig SlotType.Unused none emptyUsage 0 0 = true
      ∧ noEligibleBefore SupportConfig.defaultConfig SlotType.Unused none emptyUsage 0 = true
      ∧ barMinimalAt SupportConfig.defaultConfig SlotType.Unused none emptyUsage 0 0 = true)
    ∧ ((some ((0 : Nat), (0 : Nat)) : Option (Nat × Nat)) = none →
      noEligibleBefore SupportConfig.defaultConfig SlotType.Unused none emptyUsage 9 = true) :=
  c1_selection SupportConfig.defaultConfig SlotType.Unused none emptyUsage
    (some (0, 0)) 0 0 rfl

/-! ### Claim C10 -/

/-- Claim C10: slot selection is deterministic despite the "random" in its
doc comment — the embedded function is pure (the source's rng draw,
`.choose(rng)`, is commented out; its `min_by` scan is deterministic), so
two calls with identical configuration, slot type, stat value and cooldown
matrix return exactly the same result. -/
theorem c10_deterministic (c : SupportConfig) (ty : SlotType) (th : Option Nat)
    (usage : UsageMatrix) :
    c.get_usable_slot_index ty th usage = c.get_usable_slot_index ty th usage :=
  rfl

/-! ### Behavior-level helper lemmas -/

theorem toggleDir_ne (d : String) : toggleDir d ≠ d := by
  unfold toggleDir
  by_cases hd : d = "D"
  · rw [if_pos hd, hd]
    decide
  · rw [if_neg hd]
    intro hcon
    exact hd hcon.symm

theorem timersUnchanged_refl (st : SupportBehavior) : timersUnchanged st st :=
  ⟨rfl, rfl, rfl, rfl⟩

theorem timersUnchanged_trans {s1 s2 s3 : SupportBehavior}
    (h1 : timersUnchanged s1 s2) (h2 : timersUnchanged s2 s3) :
    timersUnchanged s1 s3 :=
  ⟨h2.1.trans h1.1, h2.2.1.trans h1.2.1, h2.2.2.1.trans h1.2.2.1,
   h2.2.2.2.trans h1.2.2.2⟩

theorem get_slot_for_spec {st : SupportBehavior} {c : SupportConfig}
    {th : Option Nat} {ty : SlotType} {now : Nat} {st' : SupportBehavior}
    {acts : List Action} {r : Option (Nat × Nat)}
    (h : st.get_slot_for c th ty true now = Except.ok (st', acts, r)) :
    timersUnchanged st st'
    ∧ ((acts = [] ∧ st' = st)
       ∨ ∃ bb ss, r = some (bb, ss) ∧ acts = [Action.sendSlotEval bb ss]
           ∧ (slotAtD c bb ss).slot_type = ty) := by
  unfold SupportBehavior.get_slot_for at h
  cases hsel : c.get_usable_slot_index ty th st.slots_usage_last_time with
  | error e => rw [hsel] at h; cases h
  | ok r0 =>
    rw [hsel] at h
    cases r0 with
    | some slot_index =>
      obtain ⟨bb, ss⟩ := slot_index
      dsimp only [SupportBehavior.send_slot] at h
      rw [if_pos rfl] at h
      cases h
      refine ⟨⟨rfl, rfl, rfl, rfl⟩, Or.inr ⟨bb, ss, rfl, rfl, ?_⟩⟩
      exact (usable_sound c ty th st.slots_usage_last_time bb ss hsel).2.1
    | none =>
      dsimp only at h
      cases h
      exact ⟨⟨rfl, rfl, rfl, rfl⟩, Or.inl ⟨rfl, rfl⟩⟩

theorem get_slot_for_onlySends {st : SupportBehavior} {c : SupportConfig}
    {th : Option Nat} {ty : SlotType} {now : Nat} {st' : SupportBehavior}
    {acts : List Action} {r : Option (Nat × Nat)}
    (h : st.get_slot_for c th ty true now = Except.ok (st', acts, r)) :
    onlySends acts = true := by
  rcases (get_slot_for_spec h).2 with ⟨ha, -⟩ | ⟨bb, ss, -, ha, -⟩ <;> rw [ha] <;> rfl

theorem onlySends_countP {acts : List Action} (h : onlySends acts = true) :
    acts.countP isMacroStart = 0 := by
  rw [List.countP_eq_zero]
  intro a ha
  have hall := (List.all_eq_true.mp h) a ha
  cases a <;> simp_all [isMacroStart]

theorem onlySends_append {a b : List Action} :
    onlySends (a ++ b) = (onlySends a && onlySends b) :=
  List.all_append

theorem tryPillFood_spec {st : SupportBehavior} {c : SupportConfig}
    {hp now : Nat} {st' : SupportBehavior} {acts : List Action}
    (h : st.tryPillFood c hp now = Except.ok (st', acts)) :
    timersUnchanged st st' ∧ onlySends acts = true := by
  unfold SupportBehavior.tryPillFood at h
  cases h1 : st.get_slot_for c (some hp) SlotType.Pill true now with
  | error e => rw [h1] at h; cases h
  | ok t1 =>
    obtain ⟨sa, aa, ra⟩ := t1
    rw [h1] at h
    dsimp only at h
    by_cases hra : ra.isNone = true
    · rw [if_pos hra] at h
      cases h2 : sa.get_slot_for c (some hp) SlotType.Food true now with
      | error e => rw [h2] at h; cases h
      | ok t2 =>
        obtain ⟨sb, ab, rb⟩ := t2
        rw [h2] at h
        dsimp only at h
        cases h
        refine ⟨timersUnchanged_trans (get_slot_for_spec h1).1 (get_slot_for_spec h2).1, ?_⟩
        rw [onlySends_append, get_slot_for_onlySends h1, get_slot_for_onlySends h2]
        rfl
    · rw [if_neg hra] at h
      cases h
      exact ⟨(get_slot_for_spec h1).1, get_slot_for_onlySends h1⟩

theorem tryStat_spec {st : SupportBehavior} {c : SupportConfig} {ty : SlotType}
    {v now : Nat} {st' : SupportBehavior} {acts : List Action}
    (h : st.tryStat c ty v now = Except.ok (st', acts)) :
    timersUnchanged st st' ∧ onlySends acts = true := by
  unfold SupportBehavior.tryStat at h
  cases h1 : st.get_slot_for c (some v) ty true now with
  | error e => rw [h1] at h; cases h
  | ok t1 =>
    obtain ⟨sa, aa, ra⟩ := t1
    rw [h1] at h
    dsimp only at h
    cases h
    exact ⟨(get_slot_for_spec h1).1, get_slot_for_onlySends h1⟩

theorem check_restorations_spec {st : SupportBehavior} {c : SupportConfig}
    {stats : ClientStats} {now : Nat} {st' : SupportBehavior} {acts : List Action}
    (h : st.check_restorations c stats now = Except.ok (st', acts)) :
    timersUnchanged st st' ∧ onlySends acts = true := by
  unfold SupportBehavior.check_restorations at h
  cases hb1 : (if stats.hp > 0 then st.tryPillFood c stats.hp now else Except.ok (st, [])) with
  | error e => rw [hb1] at h; cases h
  | ok t1 =>
    obtain ⟨st1, acts1⟩ := t1
    rw [hb1] at h
    dsimp only at h
    have p1 : timersUnchanged st st1 ∧ onlySends acts1 = true := by
      by_cases hc : stats.hp > 0
      · rw [if_pos hc] at hb1
        exact tryPillFood_spec hb1
      · rw [if_neg hc] at hb1
        cases hb1
        exact ⟨timersUnchanged_refl st, rfl⟩
    cases hb2 : (if stats.target_hp > 0 then st1.tryStat c SlotType.HealSkill stats.target_hp now else Except.ok (st1, [])) with
    | error e => rw [hb2] at h; cases h
    | ok t2 =>
      obtain ⟨st2, acts2⟩ := t2
      rw [hb2] at h
      dsimp only at h
      have p2 : timersUnchanged st1 st2 ∧ onlySends acts2 = true := by
        by_cases hc : stats.target_hp > 0
        · rw [if_pos hc] at hb2
          exact tryStat_spec hb2
        · rw [if_neg hc] at hb2
          cases hb2
          exact ⟨timersUnchanged_refl st1, rfl⟩
      cases hb3 : (if stats.mp > 0 then st2.tryStat c SlotType.MpRestorer stats.mp now else Except.ok (st2, [])) with
      | error e => rw [hb3] at h; cases h
      | ok t3 =>
        obtain ⟨st3, acts3⟩ := t3
        rw [hb3] at h
        dsimp only at h
        have p3 : timersUnchanged st2 st3 ∧ onlySends acts3 = true := by
          by_cases hc : stats.mp > 0
          · rw [if_pos hc] at hb3
            exact tryStat_spec hb3
          · rw [if_neg hc] at hb3
            cases hb3
            exact ⟨timersUnchanged_refl st2, rfl⟩
        cases hb4 : (if stats.fp > 0 then st3.tryStat c SlotType.FpRestorer stats.fp now else Except.ok (st3, [])) with
        | error e => rw [hb4] at h; cases h
        | ok t4 =>
          obtain ⟨st4, acts4⟩ := t4
          rw [hb4] at h
          dsimp only at h
          have p4 : timersUnchanged st3 st4 ∧ onlySends acts4 = true := by
            by_cases hc : stats.fp > 0
            · rw [if_pos hc] at hb4
              exact tryStat_spec hb4
            · rw [if_neg hc] at hb4
              cases hb4
              exact ⟨timersUnchanged_refl st3, rfl⟩
          cases h
          refine ⟨timersUnchanged_trans (timersUnchanged_trans (timersUnchanged_trans p1.1 p2.1) p3.1) p4.1, ?_⟩
          rw [onlySends_append, onlySends_append, onlySends_append,
            p1.2, p2.2, p3.2, p4.2]
          rfl

theorem check_buffs_spec {st : SupportBehavior} {c : SupportConfig}
    {ibb now : Nat} {st' : SupportBehavior} {acts : List Action}
    (h : st.check_buffs c ibb now = Except.ok (st', acts)) :
    (¬(now - st.last_buff_usage > ibb) → st' = st ∧ acts = [])
    ∧ (now - st.last_buff_usage > ibb →
        st'.last_buff_usage = now
        ∧ st'.last_jump_time = st.last_jump_time
        ∧ st'.avoid_obstacle_direction = st.avoid_obstacle_direction
        ∧ st'.last_far_from_target = st.last_far_from_target
        ∧ buffFireActs c acts = true
        ∧ acts.countP isMacroStart = 0) := by
  unfold SupportBehavior.check_buffs at h
  by_cases hgt : now - st.last_buff_usage > ibb
  · rw [if_pos hgt] at h
    cases hg : SupportBehavior.get_slot_for { st with last_buff_usage := now } c none SlotType.BuffSkill true now with
    | error e => rw [hg] at h; cases h
    | ok t =>
      obtain ⟨st2, acts2, r2⟩ := t
      rw [hg] at h
      dsimp only at h
      cases h
      have s2 := get_slot_for_spec hg
      refine ⟨fun hn => absurd hgt hn, fun _ => ?_⟩
      refine ⟨s2.1.1, s2.1.2.1, s2.1.2.2.1, s2.1.2.2.2, ?_, ?_⟩
      · rcases s2.2 with ⟨ha, -⟩ | ⟨bb, ss, -, ha, hty⟩
        · rw [ha]
          rfl
        · rw [ha]
          simp [buffFireActs, hty]
      · rw [List.countP_append]
        rw [onlySends_countP (get_slot_for_onlySends hg)]
        rfl
  · rw [if_neg hgt] at h
    cases h
    exact ⟨fun _ => ⟨rfl, rfl⟩, fun hg => absurd hg hgt⟩

theorem avoid_obstacle_spec (st : SupportBehavior) (oac now : Nat) :
    ((st.avoid_obstacle oac now).1.avoid_obstacle_direction = st.avoid_obstacle_direction
      ∧ ((st.avoid_obstacle oac now).2).countP isMacroStart = 0)
    ∨ ((st.avoid_obstacle oac now).1.avoid_obstacle_direction = toggleDir st.avoid_obstacle_direction
      ∧ ((st.avoid_obstacle oac now).2).countP isMacroStart = 1
      ∧ Action.holdKeys ["W", "Space", st.avoid_obstacle_direction] ∈ (st.avoid_obstacle oac now).2) := by
  unfold SupportBehavior.avoid_obstacle
  cases hf : st.last_far_from_target with
  | none =>
    dsimp only
    left
    refine ⟨rfl, ?_⟩
    simp [isMacroStart]
  | some t =>
    dsimp only
    by_cases hgt : now - t > oac
    · rw [if_pos hgt]
      right
      unfold SupportBehavior.move_circle_pattern
      refine ⟨rfl, ?_, ?_⟩
      · simp [circleActs, isMacroStart]
      · simp [circleActs]
    · rw [if_neg hgt]
      left
      exact ⟨rfl, rfl⟩

theorem engagement_spec {st1 : SupportBehavior} {ibb oac : Nat}
    {c : SupportConfig} {image : ImageSnapshot} {now : Nat}
    {st2 : SupportBehavior} {engActs : List Action}
    (h : st1.engagement ibb oac c image now = Except.ok (st2, engActs)) :
    (st2.avoid_obstacle_direction = st1.avoid_obstacle_direction
      ∧ engActs.countP isMacroStart = 0)
    ∨ (st2.avoid_obstacle_direction = toggleDir st1.avoid_obstacle_direction
      ∧ engActs.countP isMacroStart = 1
      ∧ Action.holdKeys ["W", "Space", st1.avoid_obstacle_direction] ∈ engActs) := by
  unfold SupportBehavior.engagement at h
  by_cases hthp : image.client_stats.target_hp > 0
  · rw [if_pos hthp] at h
    revert h
    cases hm : image.target_marker with
    | some m =>
      intro h
      dsimp only at h
      by_cases hd : image.marker_distance > 200
      · rw [if_pos hd] at h
        injection h with h2
        have hst2 : (SupportBehavior.avoid_obstacle (if st1.last_far_from_target.isNone = true then { st1 with last_far_from_target := some now } else st1) oac now).1 = st2 :=
          congrArg Prod.fst h2
        have hacts : (SupportBehavior.avoid_obstacle (if st1.last_far_from_target.isNone = true then { st1 with last_far_from_target := some now } else st1) oac now).2 = engActs :=
          congrArg Prod.snd h2
        have hdirMid : (if st1.last_far_from_target.isNone = true then { st1 with last_far_from_target := some now } else st1).avoid_obstacle_direction = st1.avoid_obstacle_direction := by
          by_cases hn : st1.last_far_from_target.isNone = true
          · rw [if_pos hn]
          · rw [if_neg hn]
        rcases avoid_obstacle_spec (if st1.last_far_from_target.isNone = true then { st1 with last_far_from_target := some now } else st1) oac now with ⟨ha, hb⟩ | ⟨ha, hb, hc⟩
        · left
          refine ⟨?_, ?_⟩
          · rw [← hst2, ha, hdirMid]
          · rw [← hacts]
            exact hb
        · right
          refine ⟨?_, ?_, ?_⟩
          · rw [← hst2, ha, hdirMid]
          · rw [← hacts]
            exact hb
          · rw [hdirMid] at hc
            rw [← hacts]
            exact hc
      · rw [if_neg hd] at h
        have hb := check_buffs_spec h
        by_cases hgt : now - ({ st1 with last_far_from_target := none } : SupportBehavior).last_buff_usage > ibb
        · have hfired := hb.2 hgt
          left
          exact ⟨hfired.2.2.1, hfired.2.2.2.2.2⟩
        · have hsame := hb.1 hgt
          left
          rw [hsame.1, hsame.2]
          exact ⟨rfl, rfl⟩
    | none =>
      intro h
      dsimp only at h
      injection h with h2
      have hst2 : (st1.avoid_obstacle oac now).1 = st2 := congrArg Prod.fst h2
      have hacts : (st1.avoid_obstacle oac now).2 = engActs := congrArg Prod.snd h2
      rcases avoid_obstacle_spec st1 oac now with ⟨ha, hb⟩ | ⟨ha, hb, hc⟩
      · left
        refine ⟨?_, ?_⟩
        · rw [← hst2]
          exact ha
        · rw [← hacts]
          exact hb
      · right
        refine ⟨?_, ?_, ?_⟩
        · rw [← hst2]
          exact ha
        · rw [← hacts]
          exact hb
        · rw [← hacts]
          exact hc
  · rw [if_neg hthp] at h
    cases h
    exact Or.inl ⟨rfl, rfl⟩

/-! ### Claim C4 -/

/-- Claim C4: on every tick where the target HP value is 0 and a target
marker is present, the behavior attempts exactly one RezSkill-type dispatch
with no stat threshold (the trace holds at most one dispatch command, of a
RezSkill-typed slot), then clears the whole 9×10 cooldown matrix, and
terminates the tick early: no pacing sleep, no restoration dispatch and no
engagement action appears in the trace, and the buff timer and
obstacle-avoidance state are untouched. -/
theorem c4_death_tick (ibb oac : Nat) (c : SupportConfig) (image : ImageSnapshot)
    (now : Nat) (st st' : SupportBehavior) (acts : List Action)
    (hhp : image.client_stats.target_hp = 0)
    (hmark : image.target_marker.isSome = true)
    (h : st.run_iteration ibb oac c image now = Except.ok (st', acts)) :
    st'.slots_usage_last_time = emptyUsage
    ∧ st'.last_buff_usage = st.last_buff_usage
    ∧ st'.avoid_obstacle_direction = st.avoid_obstacle_direction
    ∧ st'.last_far_from_target = st.last_far_from_target
    ∧ rezOnlyActs c acts = true := by
  unfold SupportBehavior.run_iteration at h
  cases hu : SupportBehavior.update_slots_usage c now st.slots_usage_last_time with
  | error e => rw [hu] at h; cases h
  | ok usage =>
    rw [hu] at h
    dsimp only at h
    rw [if_pos ⟨hhp, hmark⟩] at h
    cases hg : SupportBehavior.get_slot_for { st with slots_usage_last_time := usage } c none SlotType.RezSkill true now with
    | error e => rw [hg] at h; cases h
    | ok t =>
      obtain ⟨st1, acts1, r1⟩ := t
      rw [hg] at h
      dsimp only at h
      cases h
      have s1 := get_slot_for_spec hg
      refine ⟨rfl, s1.1.1, s1.1.2.2.1, s1.1.2.2.2, ?_⟩
      rcases s1.2 with ⟨ha, -⟩ | ⟨bb, ss, -, ha, hty⟩
      · rw [ha]
        rfl
      · rw [ha]
        simp [rezOnlyActs, hty]

/-- Witness for `c4_death_tick` at a concrete input (spec §8 scenario 2):
dead target with marker, RezSkill slot at `(3, 5)`; the tick dispatches it
and ends with an empty matrix and untouched timers. -/
theorem c4_death_tick_witness :
    (SupportBehavior.new 0).slots_usage_last_time = emptyUsage
    ∧ (SupportBehavior.new 0).last_buff_usage = (SupportBehavior.new 0).last_buff_usage
    ∧ (SupportBehavior.new 0).avoid_obstacle_direction = (SupportBehavior.new 0).avoid_obstacle_direction
    ∧ (SupportBehavior.new 0).last_far_from_target = (SupportBehavior.new 0).last_far_from_target
    ∧ rezOnlyActs exCfgRez [Action.sendSlotEval 3 5] = true :=
  c4_death_tick 2000 0 exCfgRez exImgDead 500 (SupportBehavior.new 0)
    (SupportBehavior.new 0) [Action.sendSlotEval 3 5] rfl rfl rfl

/-! ### Claim C5 -/

/-- Claim C5, amended: on the buff-check path a BuffSkill dispatch is
attempted when and only when the elapsed time since the last firing of the
buff check (behavior start before the first) is *strictly greater* than
the configured inter-buff interval (at elapsed = interval exactly, nothing
fires and the timer is not reset); when the check fires, the timer resets
to the firing instant — even if no usable BuffSkill slot was found — and
the trace is the attempted dispatch followed by the 100 ms pacing sleep;
when it does not fire, state and trace are unchanged. -/
theorem c5_buff_gate (ibb : Nat) (c : SupportConfig) (now : Nat)
    (st st' : SupportBehavior) (acts : List Action)
    (h : st.check_buffs c ibb now = Except.ok (st', acts)) :
    (¬(now - st.last_buff_usage > ibb) → st' = st ∧ acts = [])
    ∧ (now - st.last_buff_usage > ibb →
        st'.last_buff_usage = now
        ∧ st'.avoid_obstacle_direction = st.avoid_obstacle_direction
        ∧ st'.last_far_from_target = st.last_far_from_target
        ∧ buffFireActs c acts = true) := by
  have hs := check_buffs_spec h
  exact ⟨hs.1, fun hgt => ⟨(hs.2 hgt).1, (hs.2 hgt).2.2.1, (hs.2 hgt).2.2.2.1,
    (hs.2 hgt).2.2.2.2.1⟩⟩

/-- Counterexample to claim C5 as stated: with interval 2000, last firing
at 0 and `now = 2000` (elapsed equals the interval) and a usable BuffSkill
slot at `(0, 0)`, the claim demands a trigger and a timer reset, but the
check does nothing — state and trace are unchanged (the source fires only
on elapsed strictly greater than the interval). -/
theorem c5_counterexample :
    (SupportBehavior.new 0).check_buffs exCfgBuff 2000 2000
      = Except.ok (SupportBehavior.new 0, [])
    ∧ exCfgBuff.get_usable_slot_index SlotType.BuffSkill none emptyUsage
      = Except.ok (some (0, 0))
    ∧ (2000 : Nat) - (SupportBehavior.new 0).last_buff_usage = 2000 :=
  ⟨rfl, rfl, rfl⟩

/-- Witness for `c5_buff_gate` at a concrete input: interval 2000, last
firing 0, `now = 2001` (strictly past the interval), no usable BuffSkill
slot in the default configuration — the timer resets to 2001 and the trace
is just the pacing sleep. -/
theorem c5_buff_gate_witness :
    (¬((2001 : Nat) - (SupportBehavior.new 0).last_buff_usage > 2000) →
      exStBuff = SupportBehavior.new 0 ∧ ([Action.sleepMs 100] : List Action) = [])
    ∧ ((2001 : Nat) - (SupportBehavior.new 0).last_buff_usage > 2000 →
      exStBuff.last_buff_usage = 2001
      ∧ exStBuff.avoid_obstacle_direction = (SupportBehavior.new 0).avoid_obstacle_direction
      ∧ exStBuff.last_far_from_target = (SupportBehavior.new 0).last_far_from_target
      ∧ buffFireActs SupportConfig.defaultConfig [Action.sleepMs 100] = true) :=
  c5_buff_gate 2000 SupportConfig.defaultConfig 2001 (SupportBehavior.new 0)
    exStBuff [Action.sleepMs 100] rfl

/-! ### Claim C9 -/

/-- Claim C9: after every completed circling macro the turn-direction flag
toggles to the opposite value (`toggleDir d ≠ d` for every direction), the
macro itself plays with the pre-toggle direction, and within any tick
either no macro runs and the direction is unchanged, or exactly one macro
runs using the current direction and the direction ends toggled — so any
two consecutively triggered circling macros use opposite turn
directions. -/
theorem c9_direction (st : SupportBehavior) (ibb oac : Nat) (c : SupportConfig)
    (image : ImageSnapshot) (now : Nat) (st' : SupportBehavior)
    (acts : List Action)
    (h : st.run_iteration ibb oac c image now = Except.ok (st', acts)) :
    toggleDir st.avoid_obstacle_direction ≠ st.avoid_obstacle_direction
    ∧ st.move_circle_pattern.1.avoid_obstacle_direction = toggleDir st.avoid_obstacle_direction
    ∧ st.move_circle_pattern.2 = circleActs st.avoid_obstacle_direction
    ∧ ((st'.avoid_obstacle_direction = st.avoid_obstacle_direction
         ∧ acts.countP isMacroStart = 0)
       ∨ (st'.avoid_obstacle_direction = toggleDir st.avoid_obstacle_direction
         ∧ acts.countP isMacroStart = 1
         ∧ Action.holdKeys ["W", "Space", st.avoid_obstacle_direction] ∈ acts)) := by
  refine ⟨toggleDir_ne _, rfl, rfl, ?_⟩
  unfold SupportBehavior.run_iteration at h
  cases hu : SupportBehavior.update_slots_usage c now st.slots_usage_last_time with
  | error e => rw [hu] at h; cases h
  | ok usage =>
    rw [hu] at h
    dsimp only at h
    by_cases hdead : image.client_stats.target_hp = 0 ∧ image.target_marker.isSome = true
    · rw [if_pos hdead] at h
      cases hg : SupportBehavior.get_slot_for { st with slots_usage_last_time := usage } c none SlotType.RezSkill true now with
      | error e => rw [hg] at h; cases h
      | ok t =>
        obtain ⟨st1, acts1, r1⟩ := t
        rw [hg] at h
        dsimp only at h
        cases h
        left
        exact ⟨(get_slot_for_spec hg).1.2.2.1,
          onlySends_countP (get_slot_for_onlySends hg)⟩
    · rw [if_neg hdead] at h
      cases hresto : SupportBehavior.check_restorations { st with slots_usage_last_time := usage } c image.client_stats now with
      | error e => rw [hresto] at h; cases h
      | ok t =>
        obtain ⟨st1, restoActs⟩ := t
        rw [hresto] at h
        dsimp only at h
        cases heng : st1.engagement ibb oac c image now with
        | error e => rw [heng] at h; cases h
        | ok t2 =>
          obtain ⟨st2, engActs⟩ := t2
          rw [heng] at h
          dsimp only at h
          cases h
          have r1 := check_restorations_spec hresto
          have hdir1 : st1.avoid_obstacle_direction = st.avoid_obstacle_direction :=
            r1.1.2.2.1
          have hcount0 : restoActs.countP isMacroStart = 0 :=
            onlySends_countP r1.2
          rcases engagement_spec heng with ⟨ha, hb⟩ | ⟨ha, hb, hc⟩
          · left
            constructor
            · rw [ha, hdir1]
            · simp [List.countP_append, hcount0, hb, isMacroStart]
          · right
            refine ⟨by rw [ha, hdir1], ?_, ?_⟩
            · simp [List.countP_append, hcount0, hb, isMacroStart]
            · rw [← hdir1]
              exact List.mem_append.mpr (Or.inr hc)

/-- Witness for `c9_direction` at a concrete input: a far-target tick
(distance 250, far-since 5, grace period 0, `now = 6`) triggers the macro
with direction "D" and leaves the direction toggled to "A". -/
theorem c9_direction_witness :
    toggleDir exStFar9.avoid_obstacle_direction ≠ exStFar9.avoid_obstacle_direction
    ∧ exStFar9.move_circle_pattern.1.avoid_obstacle_direction = toggleDir exStFar9.avoid_obstacle_direction
    ∧ exStFar9.move_circle_pattern.2 = circleActs exStFar9.avoid_obstacle_direction
    ∧ ((exStFar9'.avoid_obstacle_direction = exStFar9.avoid_obstacle_direction
         ∧ exC9Acts.countP isMacroStart = 0)
       ∨ (exStFar9'.avoid_obstacle_direction = toggleDir exStFar9.avoid_obstacle_direction
         ∧ exC9Acts.countP isMacroStart = 1
         ∧ Action.holdKeys ["W", "Space", exStFar9.avoid_obstacle_direction] ∈ exC9Acts)) :=
  c9_direction exStFar9 0 0 SupportConfig.defaultConfig exImgFar 6 exStFar9'
    exC9Acts rfl

end Neuz
